import Mathlib

/-!
Verification of the real-time game-session engine of the Aptosphere repository
(`backend/src/gameService.js`), shallowly embedded in Lean 4.

Modelling conventions:
* JavaScript `Map` objects are embedded as association lists whose `set`
  operation replaces an existing key in place and appends a fresh key at the
  end; this matches `Map`'s insertion-order iteration semantics, which matter
  for `forEach`, `Array.from(map.values())` and `reduce`.
* Game ids are the strings `game_<k>` where `<k>` is the value of the
  monotone counter `this.gameId`; keys are embedded as the counter value `k`
  itself, since the `game_` prefix is a fixed constant.  Node ids `node_<i>`
  are likewise embedded as the index `i`.
* JavaScript numbers supplied by clients as coordinates may be `NaN` or
  infinite, so coordinates are embedded as the type `JSNum` (a rational or
  one of `NaN`, `+Infinity`, `-Infinity`) with IEEE comparison semantics;
  all other numeric fields only ever hold rationals or integers and are
  embedded as `ℚ`, `ℤ` or `ℕ`.
* Every call of `Math.random()` is embedded as a draw from an explicit
  oracle argument (`rnd : ℕ → ℚ` for node generation, the spawn draws of
  `joinGame`, the hash oracle of `movePlayer`); `Math.random` guarantees a
  value in `[0, 1)`, which is carried as a hypothesis where needed.
  `Date.now()` is likewise an explicit `now : ℕ` argument.
* `this.emit(...)` calls are embedded as an output list of `Event` values,
  in emission order; `throw new Error(...)` is embedded as `Except.error`.
-/

namespace Aptosphere

/-- A JavaScript number as supplied or stored by the engine: a finite
rational, `NaN`, `+Infinity` or `-Infinity`. -/
inductive JSNum where
  | fin (q : ℚ)
  | nan
  | posInf
  | negInf
deriving DecidableEq, Repr

/-- JavaScript subtraction `a - b` on `JSNum`. -/
def jsub : JSNum → JSNum → JSNum
  | .nan, _ => .nan
  | _, .nan => .nan
  | .posInf, .posInf => .nan
  | .negInf, .negInf => .nan
  | .posInf, _ => .posInf
  | .negInf, _ => .negInf
  | .fin _, .posInf => .negInf
  | .fin _, .negInf => .posInf
  | .fin a, .fin b => .fin (a - b)

/-- JavaScript `Math.abs`. -/
def jabs : JSNum → JSNum
  | .nan => .nan
  | .posInf => .posInf
  | .negInf => .posInf
  | .fin a => .fin |a|

/-- JavaScript addition on `JSNum`. -/
def jadd : JSNum → JSNum → JSNum
  | .nan, _ => .nan
  | _, .nan => .nan
  | .posInf, .negInf => .nan
  | .negInf, .posInf => .nan
  | .posInf, _ => .posInf
  | _, .posInf => .posInf
  | .negInf, _ => .negInf
  | _, .negInf => .negInf
  | .fin a, .fin b => .fin (a + b)

/-- JavaScript `Math.pow(x, 2)`. -/
def jsq : JSNum → JSNum
  | .nan => .nan
  | .posInf => .posInf
  | .negInf => .posInf
  | .fin a => .fin (a * a)

/-- JavaScript strict comparison `a > b`: any comparison with `NaN` is
false. -/
def jgt : JSNum → JSNum → Bool
  | .nan, _ => false
  | _, .nan => false
  | .posInf, .posInf => false
  | .posInf, _ => true
  | _, .posInf => false
  | .negInf, _ => false
  | _, .negInf => true
  | .fin a, .fin b => decide (b < a)

/-- JavaScript strict comparison `a < b`. -/
def jlt (a b : JSNum) : Bool := jgt b a

/-- JavaScript `Math.min`: `NaN` is absorbing. -/
def jmin : JSNum → JSNum → JSNum
  | .nan, _ => .nan
  | _, .nan => .nan
  | .negInf, _ => .negInf
  | _, .negInf => .negInf
  | .posInf, b => b
  | a, .posInf => a
  | .fin a, .fin b => .fin (min a b)

/-- JavaScript `Math.max`: `NaN` is absorbing. -/
def jmax : JSNum → JSNum → JSNum
  | .nan, _ => .nan
  | _, .nan => .nan
  | .posInf, _ => .posInf
  | _, .posInf => .posInf
  | .negInf, b => b
  | a, .negInf => a
  | .fin a, .fin b => .fin (max a b)

/-- Lookup in a JavaScript `Map` embedded as an association list
(`map.get(k)`). -/
def mapGet {κ α : Type} [DecidableEq κ] (k : κ) : List (κ × α) → Option α
  | [] => none
  | (k', v) :: rest => if k' = k then some v else mapGet k rest

/-- Update of a JavaScript `Map` embedded as an association list
(`map.set(k, v)`): replaces an existing key in place, appends a fresh key. -/
def mapSet {κ α : Type} [DecidableEq κ] (k : κ) (v : α) : List (κ × α) → List (κ × α)
  | [] => [(k, v)]
  | (k', v') :: rest => if k' = k then (k, v) :: rest else (k', v') :: mapSet k v rest

/-- `Array.from(map.values())`: the values in insertion order. -/
def mapValues {κ α : Type} (l : List (κ × α)) : List α := l.map Prod.snd

/-- The four node types of `generateNodes`. -/
inductive NodeType where
  | energy
  | commit
  | powerup
  | blockchain
deriving DecidableEq, Repr

/-- The two game-phase strings that occur in the source: `'playing'` and
`'ended'` (the specification's `Waiting` phase never occurs). -/
inductive Phase where
  | playing
  | ended
deriving DecidableEq, Repr

/-- A player record as built by `createGame` / `joinGame`. -/
structure Player where
  id : String
  name : String
  x : JSNum
  y : JSNum
  color : String
  energy : ℚ
  score : ℤ
  commits : ℕ
  isAlive : Bool
  avatar : String
  lastMove : ℕ
deriving DecidableEq, Repr

/-- A collectible node as built by `generateNodes`; the key `id` embeds the
string `node_<i>`. -/
structure Node where
  id : ℕ
  x : ℚ
  y : ℚ
  type : NodeType
  value : ℤ
  isActive : Bool
  color : String
  size : ℚ
deriving DecidableEq, Repr

/-- The `gameState` aggregate of a game. -/
structure GameState where
  tick : ℕ
  worldEnergy : ℕ
  totalCommits : ℕ
  gamePhase : Phase
  timeLeft : ℚ
  startTime : ℕ
  winner : Option String
deriving DecidableEq, Repr

/-- A game session; `timer` records whether the `setInterval` loop of
`startGameTimer` is still active (`clearInterval` sets it to `false`). -/
structure Game where
  id : ℕ
  players : List (String × Player)
  nodes : List (ℕ × Node)
  gameState : GameState
  gameTime : ℚ
  timer : Bool
deriving DecidableEq, Repr

/-- The `GameService` singleton: the session registry (`this.games`), the
player-to-game index (`this.players`, whose stored `player` reference is
never read — every access goes through `game.players` — so only the
`gameId` component is kept), and the id counter. -/
structure GameService where
  games : List (ℕ × Game)
  players : List (String × ℕ)
  gameId : ℕ
deriving DecidableEq, Repr

/-- The error messages thrown by the engine. -/
inductive GameError where
  | gameNotFound
  | gameNotActive
  | playerNotFound
  | playerNotInGame
deriving DecidableEq, Repr

/-- The events emitted through `this.emit`, with their payload fields. -/
inductive Event where
  | gameStateUpdate (gameId : ℕ) (gameState : GameState)
      (players : List Player) (nodes : List Node)
  | playerJoined (gameId : ℕ) (player : Player)
  | playerMoved (gameId : ℕ) (playerId : String) (x y : JSNum) (energy : ℚ)
  | worldStateCommitted (gameId : ℕ) (playerId : String) (rootHash : String)
      (tick : ℕ) (commits : ℕ) (score : ℤ)
  | nodeCollected (gameId : ℕ) (playerId : String) (nodeId : ℕ)
      (nodeType : NodeType) (value : ℤ) (playerScore : ℤ) (playerEnergy : ℚ)
  | gameEnded (gameId : ℕ) (winner : String) (finalScore : ℤ)
      (players : List Player)
deriving DecidableEq, Repr

/-- The fixed player palette of `generatePlayerColor`. -/
def playerPalette : List String :=
  ["#3b82f6", "#ef4444", "#10b981", "#f59e0b", "#8b5cf6",
   "#06b6d4", "#84cc16", "#f97316", "#ec4899", "#6366f1"]

/-- `generatePlayerColor`: sum of the character codes of the id, modulo the
palette length. -/
def generatePlayerColor (playerId : String) : String :=
  let hash := playerId.toList.foldl (fun a b => a + b.toNat) 0
  playerPalette.getD (hash % playerPalette.length) ""

/-- The `colors` table of `generateNodes`. -/
def nodeColor : NodeType → String
  | .energy => "#10b981"
  | .commit => "#8b5cf6"
  | .powerup => "#f59e0b"
  | .blockchain => "#6366f1"

/-- The `nodeTypes` array of `generateNodes`. -/
def nodeTypes : List NodeType := [.energy, .commit, .powerup, .blockchain]

/-- One iteration of the `generateNodes` loop; `r1 .. r5` are the five
`Math.random()` draws of that iteration, in source order (type, x, y,
value, size). -/
def generateNode (i : ℕ) (r1 r2 r3 r4 r5 : ℚ) : Node :=
  let type := nodeTypes.getD (Int.toNat ⌊r1 * 4⌋) .energy
  { id := i
    x := r2 * 700 + 50
    y := r3 * 500 + 50
    type := type
    value := ⌊r4 * 200⌋ + 50
    isActive := true
    color := nodeColor type
    size := 20 + r5 * 15 }

/-- `generateNodes`: five nodes, keyed `node_0 .. node_4`, drawing from the
randomness oracle `rnd` in call order. -/
def generateNodes (rnd : ℕ → ℚ) : List (ℕ × Node) :=
  (List.range 5).map fun i =>
    (i, generateNode i (rnd (5 * i)) (rnd (5 * i + 1)) (rnd (5 * i + 2))
      (rnd (5 * i + 3)) (rnd (5 * i + 4)))

/-- The player literal built identically by `createGame` (at the center
`(400, 300)`) and `joinGame` (at the random spawn point): full energy, zero
score and commits, palette colour, rocket avatar, fresh `lastMove` stamp. -/
def freshPlayer (pid pname : String) (x y : ℚ) (now : ℕ) : Player :=
  { id := pid, name := pname, x := .fin x, y := .fin y,
    color := generatePlayerColor pid, energy := 100, score := 0,
    commits := 0, isAlive := true, avatar := "🚀", lastMove := now }

/-- The player-record update of `movePlayer`'s applied branch, before
collision resolution: clamped position, energy decremented by `0.5` and
floored at `0`, `lastMove` stamped. -/
def movedPlayer (p : Player) (x y : JSNum) (now : ℕ) : Player :=
  { p with x := jmax (.fin 50) (jmin (.fin 750) x),
           y := jmax (.fin 50) (jmin (.fin 550) y),
           energy := max 0 (p.energy - 1/2),
           lastMove := now }

/-- The reduction step of `endGame`'s winner computation:
`(prev, current) => prev.score > current.score ? prev : current`. -/
def winnerStep (prev current : Player) : Player :=
  if prev.score > current.score then prev else current

/-- `players.reduce(winnerStep)`: `none` on an empty array (where the
JavaScript `reduce` with no initial value throws a `TypeError`). -/
def winnerOf : List Player → Option Player
  | [] => none
  | p :: rest => some (rest.foldl winnerStep p)

/-- The collision test of `checkNodeCollisions` against the player position
`(px, py)`: the source compares
`Math.sqrt((px - n.x)^2 + (py - n.y)^2) < n.size + 25`; it is embedded in
the equivalent squared form (for every generated node `n.size + 25 > 0`,
and on `NaN` or infinite radicands both forms are false alike). -/
def collidesAt (px py : JSNum) (n : Node) : Bool :=
  jlt (jadd (jsq (jsub px (.fin n.x))) (jsq (jsub py (.fin n.y))))
    (.fin ((n.size + 25) * (n.size + 25)))

/-- `handleNodeCollision`: applies the type-specific effect to the player
and the game state, deactivates the node, and emits.  The `commit` case of
the source calls `commitWorldState(player.id, <random hex>, gameState.tick)`;
that call re-resolves `player.id` through the registry to this same player
and game (`checkNodeCollisions` is only reached from `movePlayer`, which
resolved them through the same registry), so its accounting and its
`worldStateCommitted` emission are applied directly here, with `rootHash`
the oracle draw for the random hex string. -/
def handleNodeCollision (gid : ℕ) (player : Player) (gs : GameState)
    (node : Node) (rootHash : String) :
    Player × GameState × Node × List Event :=
  let step : Player × GameState × List Event :=
    match node.type with
    | .energy =>
        ({ player with energy := min 100 (player.energy + (node.value : ℚ)) }, gs, [])
    | .commit =>
        let p := { player with commits := player.commits + 1, score := player.score + 100 }
        let gs' := { gs with totalCommits := gs.totalCommits + 1,
                             worldEnergy := gs.worldEnergy + 50 }
        (p, gs', [Event.worldStateCommitted gid player.id rootHash gs.tick p.commits p.score])
    | .powerup =>
        ({ player with score := player.score + node.value }, gs, [])
    | .blockchain =>
        ({ player with score := player.score + node.value,
                       commits := player.commits + 1 }, gs, [])
  (step.1, step.2.1, { node with isActive := false },
    step.2.2 ++ [Event.nodeCollected gid player.id node.id node.type node.value
      step.1.score step.1.energy])

/-- `checkNodeCollisions`: iterates the node map in insertion order; for
every still-active node within range of the player's position the collision
is handled.  `k` counts the hash-oracle draws consumed so far (one per
`commit`-type collision). -/
def checkNodeCollisions (gid : ℕ) (hashes : ℕ → String) :
    List (ℕ × Node) → Player → GameState → ℕ →
    List (ℕ × Node) × Player × GameState × ℕ × List Event
  | [], p, gs, k => ([], p, gs, k, [])
  | (nid, node) :: rest, p, gs, k =>
    if node.isActive && collidesAt p.x p.y node then
      let h := handleNodeCollision gid p gs node (hashes k)
      let k1 := if node.type = NodeType.commit then k + 1 else k
      let r := checkNodeCollisions gid hashes rest h.1 h.2.1 k1
      ((nid, h.2.2.1) :: r.1, r.2.1, r.2.2.1, r.2.2.2.1, h.2.2.2 ++ r.2.2.2.2)
    else
      let r := checkNodeCollisions gid hashes rest p gs k
      ((nid, node) :: r.1, r.2.1, r.2.2.1, r.2.2.2.1, r.2.2.2.2)

/-- `createGame(playerId, playerName, gameTime = 15)`: allocates the next
game id, generates nodes, inserts the owner at the arena center, records
the registry mapping, starts the timer loop, and emits the initial
`gameStateUpdate`.  There is no validation of `gameTime`. -/
def createGame (svc : GameService) (playerId playerName : String)
    (gameTime : ℚ) (rnd : ℕ → ℚ) (now : ℕ) :
    GameService × (ℕ × Player × GameState × List Node) × List Event :=
  let gameId := svc.gameId
  let nodes := generateNodes rnd
  let gs : GameState :=
    { tick := 0, worldEnergy := 1000, totalCommits := 0,
      gamePhase := .playing, timeLeft := gameTime, startTime := now,
      winner := none }
  let player : Player := freshPlayer playerId playerName 400 300 now
  let game : Game :=
    { id := gameId, players := [(playerId, player)], nodes := nodes,
      gameState := gs, gameTime := gameTime, timer := true }
  let svc' : GameService :=
    { games := mapSet gameId game svc.games,
      players := mapSet playerId gameId svc.players,
      gameId := svc.gameId + 1 }
  (svc', (gameId, player, gs, mapValues nodes),
    [Event.gameStateUpdate gameId gs (mapValues game.players) (mapValues nodes)])

/-- `joinGame(gameId, playerId, playerName)`: fails when the game is absent
or its phase is not `'playing'`; otherwise installs a fresh player record
at the randomly drawn spawn position `(rx * 700 + 50, ry * 500 + 50)`,
overwriting any existing record under that id, and repoints the registry
mapping. -/
def joinGame (svc : GameService) (gameId : ℕ) (playerId playerName : String)
    (rx ry : ℚ) (now : ℕ) :
    Except GameError (GameService × Player × GameState × List Event) :=
  match mapGet gameId svc.games with
  | none => .error .gameNotFound
  | some game =>
    if game.gameState.gamePhase = Phase.playing then
      let player : Player :=
        freshPlayer playerId playerName (rx * 700 + 50) (ry * 500 + 50) now
      let game' := { game with players := mapSet playerId player game.players }
      let svc' := { svc with games := mapSet gameId game' svc.games,
                             players := mapSet playerId gameId svc.players }
      .ok (svc', player, game'.gameState, [Event.playerJoined gameId player])
    else .error .gameNotActive

/-- `movePlayer(playerId, x, y)`: resolves the player through the registry;
applies the move only when `|player.x - x| > 5 || |player.y - y| > 5`
(JavaScript comparison: false on `NaN`); an applied move clamps each
coordinate with `Math.max(50, Math.min(bound, c))`, decrements energy by
`0.5` floored at `0`, stamps `lastMove`, runs collision resolution, and
emits `playerMoved`; otherwise it returns the unchanged player and state
and emits nothing.  The game phase is never consulted. -/
def movePlayer (svc : GameService) (playerId : String) (x y : JSNum)
    (hashes : ℕ → String) (now : ℕ) :
    Except GameError (GameService × Player × GameState × List Event) :=
  match mapGet playerId svc.players with
  | none => .error .playerNotFound
  | some gid =>
    match mapGet gid svc.games with
    | none => .error .gameNotFound
    | some game =>
      match mapGet playerId game.players with
      | none => .error .playerNotInGame
      | some player =>
        let positionChanged :=
          jgt (jabs (jsub player.x x)) (.fin 5) ||
          jgt (jabs (jsub player.y y)) (.fin 5)
        if positionChanged then
          let p1 : Player := movedPlayer player x y now
          let r := checkNodeCollisions gid hashes game.nodes p1 game.gameState 0
          let game' := { game with players := mapSet playerId r.2.1 game.players,
                                   nodes := r.1, gameState := r.2.2.1 }
          let svc' := { svc with games := mapSet gid game' svc.games }
          .ok (svc', r.2.1, r.2.2.1,
            r.2.2.2.2 ++ [Event.playerMoved gid playerId r.2.1.x r.2.1.y r.2.1.energy])
        else
          .ok (svc, player, game.gameState, [])

/-- `commitWorldState(playerId, rootHash, tick)`: resolves the player
through the registry (the three `throw` sites, in order), then increments
the player's commits and score, the session's `totalCommits` and
`worldEnergy`, and emits; the game phase is never consulted. -/
def commitWorldState (svc : GameService) (playerId rootHash : String)
    (tick : ℕ) :
    Except GameError (GameService × Player × GameState × List Event) :=
  match mapGet playerId svc.players with
  | none => .error .playerNotFound
  | some gid =>
    match mapGet gid svc.games with
    | none => .error .gameNotFound
    | some game =>
      match mapGet playerId game.players with
      | none => .error .playerNotInGame
      | some player =>
        let p' := { player with commits := player.commits + 1,
                                score := player.score + 100 }
        let gs' := { game.gameState with
                       totalCommits := game.gameState.totalCommits + 1,
                       worldEnergy := game.gameState.worldEnergy + 50 }
        let game' := { game with players := mapSet playerId p' game.players,
                                 gameState := gs' }
        let svc' := { svc with games := mapSet gid game' svc.games }
        .ok (svc', p', gs',
          [Event.worldStateCommitted gid playerId rootHash tick p'.commits p'.score])

/-- `endGame(gameId)`: sets the phase to `'ended'`, computes the winner by
`players.reduce(winnerStep)`, records `winner.name`, clears the timer, and
emits `gameEnded`.  On an empty player array the source's `reduce` throws
after the phase write: the phase mutation persists, the timer is not
cleared, and nothing is emitted. -/
def endGame (svc : GameService) (gid : ℕ) : GameService × List Event :=
  match mapGet gid svc.games with
  | none => (svc, [])
  | some game =>
    let gs1 := { game.gameState with gamePhase := Phase.ended }
    match winnerOf (mapValues game.players) with
    | none =>
      ({ svc with games := mapSet gid { game with gameState := gs1 } svc.games }, [])
    | some w =>
      let gs2 := { gs1 with winner := some w.name }
      let game' := { game with gameState := gs2, timer := false }
      ({ svc with games := mapSet gid game' svc.games },
        [Event.gameEnded gid w.name w.score (mapValues game.players)])

/-- One firing of the `setInterval` callback installed by
`startGameTimer(gameId)`.  The callback closes over the game object; since
games are never removed from the map, looking the game up again is
equivalent.  While the phase is not `'playing'` the firing only clears the
interval; otherwise it advances `tick`, applies
`timeLeft = Math.max(0, timeLeft - 1)`, emits a `gameStateUpdate` every
fifth tick, and calls `endGame` when `timeLeft <= 0`. -/
def timerTick (svc : GameService) (gid : ℕ) : GameService × List Event :=
  match mapGet gid svc.games with
  | none => (svc, [])
  | some game =>
    if game.gameState.gamePhase = Phase.playing then
      let gs1 := { game.gameState with
                     tick := game.gameState.tick + 1,
                     timeLeft := max 0 (game.gameState.timeLeft - 1) }
      let evs1 := if gs1.tick % 5 = 0 then
          [Event.gameStateUpdate gid gs1 (mapValues game.players)
            (mapValues game.nodes)]
        else []
      let svc1 := { svc with games := mapSet gid { game with gameState := gs1 } svc.games }
      if gs1.timeLeft ≤ 0 then
        let r := endGame svc1 gid
        (r.1, evs1 ++ r.2)
      else
        (svc1, evs1)
    else
      ({ svc with games := mapSet gid { game with timer := false } svc.games }, [])

/-! ### Concrete states used by witnesses and counterexamples -/

/-- The service at process start: empty maps, id counter at 1. -/
def initService : GameService := { games := [], players := [], gameId := 1 }

/-- A randomness oracle that always draws 0 (a legal `Math.random` value). -/
def zeroDraw : ℕ → ℚ := fun _ => 0

/-- A hash oracle for `movePlayer`. -/
def zeroHash : ℕ → String := fun _ => ""

/-- One session of duration 15 owned by Alice. -/
def svcA : GameService := (createGame initService "p1" "Alice" 15 zeroDraw 0).1

/-- One session of duration 1 owned by Alice. -/
def svcA1 : GameService := (createGame initService "p1" "Alice" 1 zeroDraw 0).1

/-- The duration-1 session after its first and final loop firing: ended. -/
def svcEnded : GameService := (timerTick svcA1 1).1

/-- The duration-15 session after an explicit commit by Alice (score 100). -/
def svcB : GameService :=
  match commitWorldState svcA "p1" "h" 0 with
  | .ok r => r.1
  | .error _ => svcA

/-- The duration-1 session with Bob joined (both players at score 0). -/
def svcAB1 : GameService :=
  match joinGame svcA1 1 "p2" "Bob" 0 0 0 with
  | .ok r => r.1
  | .error _ => svcA1

/-- Projection helper: the game stored under a key, with a dummy default. -/
def gameOf (svc : GameService) (gid : ℕ) : Game :=
  (mapGet gid svc.games).getD
    { id := 0, players := [], nodes := [],
      gameState := { tick := 0, worldEnergy := 0, totalCommits := 0,
                     gamePhase := .playing, timeLeft := 0, startTime := 0,
                     winner := none },
      gameTime := 0, timer := false }

/-- Projection helper: the player stored under a key, with a dummy default. -/
def playerOf (svc : GameService) (gid : ℕ) (pid : String) : Player :=
  (mapGet pid (gameOf svc gid).players).getD
    { id := "", name := "", x := .fin 0, y := .fin 0, color := "",
      energy := 0, score := 0, commits := 0, isAlive := false, avatar := "",
      lastMove := 0 }

/-! ### Association-list lemmas -/

theorem mapGet_mapSet_self {κ α : Type} [DecidableEq κ] (k : κ) (v : α) :
    ∀ l : List (κ × α), mapGet k (mapSet k v l) = some v
  | [] => by simp [mapGet, mapSet]
  | (k', v') :: rest => by
      by_cases h : k' = k
      · simp [mapGet, mapSet, h]
      · simp [mapGet, mapSet, h, mapGet_mapSet_self k v rest]

theorem mapGet_mapSet_ne {κ α : Type} [DecidableEq κ] {k k' : κ} (v : α)
    (h : k ≠ k') : ∀ l : List (κ × α), mapGet k' (mapSet k v l) = mapGet k' l
  | [] => by simp [mapGet, mapSet, h]
  | (k'', v'') :: rest => by
      by_cases h2 : k'' = k
      · subst h2
        simp [mapGet, mapSet, h]
      · simp [mapGet, mapSet, h2, mapGet_mapSet_ne v h rest]

theorem mem_mapSet {κ α : Type} [DecidableEq κ] {k : κ} {v : α}
    {pr : κ × α} : ∀ {l : List (κ × α)}, pr ∈ mapSet k v l → pr = (k, v) ∨ pr ∈ l
  | [], h => by simpa [mapSet] using h
  | (k', v') :: rest, h => by
      by_cases h2 : k' = k
      · simp only [mapSet, if_pos h2, List.mem_cons] at h
        rcases h with h | h
        · exact Or.inl h
        · exact Or.inr (List.mem_cons_of_mem _ h)
      · simp only [mapSet, if_neg h2, List.mem_cons] at h
        rcases h with h | h
        · exact Or.inr (by simp [h])
        · rcases mem_mapSet h with h3 | h3
          · exact Or.inl h3
          · exact Or.inr (List.mem_cons_of_mem _ h3)

theorem mapGet_mem {κ α : Type} [DecidableEq κ] {k : κ} {v : α} :
    ∀ {l : List (κ × α)}, mapGet k l = some v → (k, v) ∈ l
  | [], h => by simp [mapGet] at h
  | (k', v') :: rest, h => by
      by_cases h2 : k' = k
      · rw [mapGet, if_pos h2] at h
        injection h with h3
        subst h2
        subst h3
        exact List.mem_cons_self _ _
      · rw [mapGet, if_neg h2] at h
        exact List.mem_cons_of_mem _ (mapGet_mem h)

theorem mapSet_mapSet {κ α : Type} [DecidableEq κ] (k : κ) (v1 v2 : α) :
    ∀ l : List (κ × α), mapSet k v2 (mapSet k v1 l) = mapSet k v2 l
  | [] => by simp [mapSet]
  | (k', v') :: rest => by
      by_cases h : k' = k
      · simp [mapSet, h]
      · simp [mapSet, h, mapSet_mapSet k v1 v2 rest]

/-! ### The collision engine against its specification -/

/-- The type-specific reward effect exactly as §4.3 of the specification
states it — energy: add `value` clamped to 100; commit: the explicit-commit
accounting; powerup: add `value` to score; blockchain: add `value` to score
and one commit — used as the refinement target for `handleNodeCollision`. -/
def specNodeEffect (pg : Player × GameState) (n : Node) : Player × GameState :=
  match n.type with
  | .energy => ({ pg.1 with energy := min 100 (pg.1.energy + (n.value : ℚ)) }, pg.2)
  | .commit =>
      ({ pg.1 with commits := pg.1.commits + 1, score := pg.1.score + 100 },
       { pg.2 with totalCommits := pg.2.totalCommits + 1,
                   worldEnergy := pg.2.worldEnergy + 50 })
  | .powerup => ({ pg.1 with score := pg.1.score + n.value }, pg.2)
  | .blockchain =>
      ({ pg.1 with score := pg.1.score + n.value,
                   commits := pg.1.commits + 1 }, pg.2)

theorem specNodeEffect_fields (pg : Player × GameState) (n : Node) :
    (specNodeEffect pg n).1.x = pg.1.x ∧ (specNodeEffect pg n).1.y = pg.1.y ∧
    (specNodeEffect pg n).1.lastMove = pg.1.lastMove := by
  cases ht : n.type <;> simp [specNodeEffect, ht]

theorem handleNodeCollision_spec (gid : ℕ) (p : Player) (gs : GameState)
    (n : Node) (h : String) :
    ((handleNodeCollision gid p gs n h).1, (handleNodeCollision gid p gs n h).2.1)
        = specNodeEffect (p, gs) n ∧
    (handleNodeCollision gid p gs n h).2.2.1 = { n with isActive := false } := by
  cases ht : n.type <;> simp [handleNodeCollision, specNodeEffect, ht]

/-- Full characterisation of `checkNodeCollisions`: every node that is
active and in range of the (unchanged) player position is deactivated and
the others are untouched, and the player and game state receive exactly the
fold of the specification's type-specific effects over the captured nodes
in iteration order. -/
theorem checkNodeCollisions_spec (gid : ℕ) (hs : ℕ → String) :
    ∀ (nodes : List (ℕ × Node)) (p : Player) (gs : GameState) (k : ℕ),
      (checkNodeCollisions gid hs nodes p gs k).1
          = nodes.map (fun e => if e.2.isActive && collidesAt p.x p.y e.2
              then (e.1, { e.2 with isActive := false }) else e) ∧
      ((checkNodeCollisions gid hs nodes p gs k).2.1,
        (checkNodeCollisions gid hs nodes p gs k).2.2.1)
          = ((nodes.filter fun e => e.2.isActive && collidesAt p.x p.y e.2).map
              Prod.snd).foldl specNodeEffect (p, gs) ∧
      (checkNodeCollisions gid hs nodes p gs k).2.1.x = p.x ∧
      (checkNodeCollisions gid hs nodes p gs k).2.1.y = p.y ∧
      (checkNodeCollisions gid hs nodes p gs k).2.1.lastMove = p.lastMove
  | [], p, gs, k => by simp [checkNodeCollisions]
  | (nid, node) :: rest, p, gs, k => by
      obtain ⟨hx, hy, hl⟩ := specNodeEffect_fields (p, gs) node
      obtain ⟨hpe, hnode⟩ := handleNodeCollision_spec gid p gs node (hs k)
      have h1 : (handleNodeCollision gid p gs node (hs k)).1
          = (specNodeEffect (p, gs) node).1 := congrArg Prod.fst hpe
      have h2 : (handleNodeCollision gid p gs node (hs k)).2.1
          = (specNodeEffect (p, gs) node).2 := congrArg Prod.snd hpe
      by_cases hc : (node.isActive && collidesAt p.x p.y node) = true
      · obtain ⟨ih1, ih2, ihx, ihy, ihl⟩ :=
          checkNodeCollisions_spec gid hs rest
            (handleNodeCollision gid p gs node (hs k)).1
            (handleNodeCollision gid p gs node (hs k)).2.1
            (if node.type = NodeType.commit then k + 1 else k)
        have hpx : (handleNodeCollision gid p gs node (hs k)).1.x = p.x := by
          rw [h1, hx]
        have hpy : (handleNodeCollision gid p gs node (hs k)).1.y = p.y := by
          rw [h1, hy]
        have hpl : (handleNodeCollision gid p gs node (hs k)).1.lastMove
            = p.lastMove := by rw [h1, hl]
        rw [hpx, hpy] at ih1 ih2
        simp only [checkNodeCollisions, if_pos hc]
        refine ⟨?_, ?_, ?_, ?_, ?_⟩
        · simp only [List.map_cons, if_pos hc, ih1, hnode]
        · simp only [List.filter_cons, hc, if_pos, List.map_cons,
            List.foldl_cons, ih2]
          rw [show specNodeEffect (p, gs) node
              = ((handleNodeCollision gid p gs node (hs k)).1,
                 (handleNodeCollision gid p gs node (hs k)).2.1) from hpe.symm]
        · rw [ihx, hpx]
        · rw [ihy, hpy]
        · rw [ihl, hpl]
      · obtain ⟨ih1, ih2, ihx, ihy, ihl⟩ :=
          checkNodeCollisions_spec gid hs rest p gs k
        simp only [checkNodeCollisions, if_neg hc]
        refine ⟨?_, ?_, ihx, ihy, ihl⟩
        · simp only [List.map_cons, if_neg hc, ih1]
        · have hcf : (node.isActive && collidesAt p.x p.y node) = false := by
            simpa using hc
          simp [List.filter_cons, hcf, ih2]

/-! ### Bounds and monotonicity of the reward effects -/

theorem specNodeEffect_inv (pg : Player × GameState) (n : Node)
    (h0 : 0 ≤ pg.1.energy) (h1 : pg.1.energy ≤ 100) (h2 : 0 ≤ pg.1.score)
    (hv : 0 ≤ n.value) :
    0 ≤ (specNodeEffect pg n).1.energy ∧ (specNodeEffect pg n).1.energy ≤ 100 ∧
    0 ≤ (specNodeEffect pg n).1.score ∧
    pg.1.score ≤ (specNodeEffect pg n).1.score ∧
    pg.1.commits ≤ (specNodeEffect pg n).1.commits := by
  have hv' : (0 : ℚ) ≤ (n.value : ℚ) := by exact_mod_cast hv
  cases ht : n.type
  case energy =>
    simp only [specNodeEffect, ht]
    exact ⟨le_min (by norm_num) (by linarith), min_le_left _ _, h2,
      le_refl _, le_refl _⟩
  case commit =>
    simp only [specNodeEffect, ht]
    exact ⟨h0, h1, by linarith, by linarith, Nat.le_succ _⟩
  case powerup =>
    simp only [specNodeEffect, ht]
    exact ⟨h0, h1, by linarith, by linarith, le_refl _⟩
  case blockchain =>
    simp only [specNodeEffect, ht]
    exact ⟨h0, h1, by linarith, by linarith, Nat.le_succ _⟩

theorem specFold_inv :
    ∀ (l : List Node) (p : Player) (gs : GameState),
      0 ≤ p.energy → p.energy ≤ 100 → 0 ≤ p.score → (∀ n ∈ l, 0 ≤ n.value) →
      0 ≤ (l.foldl specNodeEffect (p, gs)).1.energy ∧
      (l.foldl specNodeEffect (p, gs)).1.energy ≤ 100 ∧
      0 ≤ (l.foldl specNodeEffect (p, gs)).1.score ∧
      p.score ≤ (l.foldl specNodeEffect (p, gs)).1.score ∧
      p.commits ≤ (l.foldl specNodeEffect (p, gs)).1.commits
  | [], p, gs, h0, h1, h2, _ => by
      simp only [List.foldl_nil]
      exact ⟨h0, h1, h2, le_refl _, le_refl _⟩
  | n :: rest, p, gs, h0, h1, h2, hv => by
      obtain ⟨e0, e1, e2, e3, e4⟩ :=
        specNodeEffect_inv (p, gs) n h0 h1 h2 (hv n (List.mem_cons_self _ _))
      have ih := specFold_inv rest (specNodeEffect (p, gs) n).1
        (specNodeEffect (p, gs) n).2 e0 e1 e2
        (fun m hm => hv m (List.mem_cons_of_mem _ hm))
      simp only [Prod.mk.eta] at ih
      simp only [List.foldl_cons]
      exact ⟨ih.1, ih.2.1, ih.2.2.1, le_trans e3 ih.2.2.2.1,
        le_trans e4 ih.2.2.2.2⟩

/-! ### The winner computation of `endGame` -/

theorem foldl_winnerStep_cases :
    ∀ (l : List Player) (a : Player),
      l.foldl winnerStep a = a ∨ l.foldl winnerStep a ∈ l
  | [], _ => Or.inl rfl
  | b :: rest, a => by
      have h := foldl_winnerStep_cases rest (winnerStep a b)
      simp only [List.foldl_cons]
      rcases h with h | h
      · rw [h]
        unfold winnerStep
        split
        · exact Or.inl rfl
        · exact Or.inr (List.mem_cons_self _ _)
      · exact Or.inr (List.mem_cons_of_mem _ h)

theorem winnerStep_le_left (a b : Player) : a.score ≤ (winnerStep a b).score := by
  unfold winnerStep
  split
  · exact le_refl _
  · next h => exact le_of_not_lt h

theorem winnerStep_le_right (a b : Player) : b.score ≤ (winnerStep a b).score := by
  unfold winnerStep
  split
  · next h => exact le_of_lt h
  · exact le_refl _

theorem foldl_winnerStep_score :
    ∀ (l : List Player) (a : Player),
      a.score ≤ (l.foldl winnerStep a).score ∧
      ∀ p ∈ l, p.score ≤ (l.foldl winnerStep a).score
  | [], a => ⟨le_refl _, by simp⟩
  | b :: rest, a => by
      obtain ⟨ih1, ih2⟩ := foldl_winnerStep_score rest (winnerStep a b)
      simp only [List.foldl_cons]
      refine ⟨le_trans (winnerStep_le_left a b) ih1, ?_⟩
      intro p hp
      rcases List.mem_cons.mp hp with h | h
      · rw [h]
        exact le_trans (winnerStep_le_right a b) ih1
      · exact ih2 p h

theorem winnerOf_mem {l : List Player} {w : Player}
    (h : winnerOf l = some w) : w ∈ l := by
  match l, h with
  | a :: rest, h =>
    simp only [winnerOf, Option.some.injEq] at h
    subst h
    rcases foldl_winnerStep_cases rest a with h2 | h2
    · rw [h2]
      exact List.mem_cons_self _ _
    · exact List.mem_cons_of_mem _ h2

theorem winnerOf_score {l : List Player} {w : Player}
    (h : winnerOf l = some w) : ∀ p ∈ l, p.score ≤ w.score := by
  match l, h with
  | a :: rest, h =>
    simp only [winnerOf, Option.some.injEq] at h
    subst h
    intro p hp
    rcases List.mem_cons.mp hp with h2 | h2
    · rw [h2]
      exact (foldl_winnerStep_score rest a).1
    · exact (foldl_winnerStep_score rest a).2 p h2

/-- The tie-break of `endGame`'s `reduce`: a final player whose score is at
least every earlier player's score is the winner — ties are resolved in
favour of the LAST player encountered in iteration order. -/
theorem winnerOf_last_tie :
    ∀ (l : List Player) (last w : Player),
      winnerOf (l ++ [last]) = some w → (∀ q ∈ l, q.score ≤ last.score) →
      w = last
  | [], last, w, h, _ => by
      simp only [List.nil_append, winnerOf, List.foldl_nil,
        Option.some.injEq] at h
      exact h.symm
  | a :: rest, last, w, h, hle => by
      simp only [List.cons_append, winnerOf, List.foldl_append,
        List.foldl_cons, List.foldl_nil, Option.some.injEq] at h
      subst h
      have hf : (rest.foldl winnerStep a).score ≤ last.score := by
        rcases foldl_winnerStep_cases rest a with h2 | h2
        · rw [h2]
          exact hle a (List.mem_cons_self _ _)
        · exact hle _ (List.mem_cons_of_mem _ h2)
      unfold winnerStep
      split
      · next h3 => exact absurd h3 (not_lt_of_le hf)
      · rfl

/-! ### Operation sequences over the service -/

/-- One engine operation, with its randomness/clock oracles made explicit. -/
inductive Op where
  | create (playerId playerName : String) (gameTime : ℚ) (rnd : ℕ → ℚ) (now : ℕ)
  | join (gameId : ℕ) (playerId playerName : String) (rx ry : ℚ) (now : ℕ)
  | move (playerId : String) (x y : JSNum) (hashes : ℕ → String) (now : ℕ)
  | commit (playerId rootHash : String) (tick : ℕ)
  | tick (gameId : ℕ)

/-- Applying one operation to the service; a thrown error leaves the state
unchanged (every `throw` site of the source precedes every mutation). -/
def applyOp (svc : GameService) : Op → GameService
  | .create pid pname t rnd now => (createGame svc pid pname t rnd now).1
  | .join gid pid pname rx ry now =>
      match joinGame svc gid pid pname rx ry now with
      | .ok r => r.1
      | .error _ => svc
  | .move pid x y hs now =>
      match movePlayer svc pid x y hs now with
      | .ok r => r.1
      | .error _ => svc
  | .commit pid h tk =>
      match commitWorldState svc pid h tk with
      | .ok r => r.1
      | .error _ => svc
  | .tick gid => (timerTick svc gid).1

/-- Applying a sequence of operations, in order. -/
def applyOps (svc : GameService) : List Op → GameService
  | [] => svc
  | op :: ops => applyOps (applyOp svc op) ops

/-- Well-formedness of an operation's oracles: every `Math.random()` draw
lies in `[0, 1)`, the guarantee of the JavaScript runtime. -/
def OpWF : Op → Prop
  | .create _ _ _ rnd _ => ∀ i, 0 ≤ rnd i ∧ rnd i < 1
  | .join _ _ _ rx ry _ => 0 ≤ rx ∧ rx < 1 ∧ 0 ≤ ry ∧ ry < 1
  | _ => True

/-- Whether an operation is a `joinGame` under the given player id (the one
operation that replaces an existing player record). -/
def isJoinOf (pid : String) : Op → Prop
  | .join _ pid' _ _ _ _ => pid' = pid
  | _ => False

/-! ### State invariants -/

/-- Per-player bounds: energy within `[0, 100]`, score non-negative. -/
def PlayerInv (p : Player) : Prop :=
  0 ≤ p.energy ∧ p.energy ≤ 100 ∧ 0 ≤ p.score

instance (p : Player) : Decidable (PlayerInv p) :=
  decidable_of_iff (0 ≤ p.energy ∧ p.energy ≤ 100 ∧ 0 ≤ p.score) Iff.rfl

/-- Per-game bounds: every player satisfies `PlayerInv`, every node value
is non-negative (as generated: values lie in `[50, 249]`). -/
def GameInv (g : Game) : Prop :=
  (∀ e ∈ g.players, PlayerInv e.2) ∧ ∀ e ∈ g.nodes, 0 ≤ e.2.value

instance (g : Game) : Decidable (GameInv g) :=
  decidable_of_iff
    ((∀ e ∈ g.players, PlayerInv e.2) ∧ ∀ e ∈ g.nodes, 0 ≤ e.2.value) Iff.rfl

/-- All games satisfy `GameInv` and carry a key below the id counter (the
counter only ever hands out fresh keys). -/
def InvAux (games : List (ℕ × Game)) (n : ℕ) : Prop :=
  ∀ e ∈ games, GameInv e.2 ∧ e.1 < n

instance (games : List (ℕ × Game)) (n : ℕ) : Decidable (InvAux games n) :=
  decidable_of_iff (∀ e ∈ games, GameInv e.2 ∧ e.1 < n) Iff.rfl

/-- The reachable-state invariant of the service. -/
def Inv (svc : GameService) : Prop := InvAux svc.games svc.gameId

instance (svc : GameService) : Decidable (Inv svc) :=
  decidable_of_iff (InvAux svc.games svc.gameId) Iff.rfl

/-- Registry consistency: every player-to-game mapping points to an
existing game that contains the player (`joinGame`/`createGame` write both
sides together, and neither games nor players are ever deleted). -/
def RegInv (svc : GameService) : Prop :=
  ∀ e ∈ svc.players,
    ((mapGet e.2 svc.games).bind fun g => mapGet e.1 g.players).isSome

instance (svc : GameService) : Decidable (RegInv svc) :=
  decidable_of_iff
    (∀ e ∈ svc.players,
      ((mapGet e.2 svc.games).bind fun g => mapGet e.1 g.players).isSome)
    Iff.rfl

theorem InvAux_mono {games : List (ℕ × Game)} {n m : ℕ}
    (h : InvAux games n) (hnm : n ≤ m) : InvAux games m :=
  fun e he => ⟨(h e he).1, lt_of_lt_of_le (h e he).2 hnm⟩

theorem InvAux_set {games : List (ℕ × Game)} {n : ℕ} {k : ℕ} {g : Game}
    (h : InvAux games n) (hg : GameInv g) (hk : k < n) :
    InvAux (mapSet k g games) n := by
  intro e he
  rcases mem_mapSet he with h2 | h2
  · rw [h2]
    exact ⟨hg, hk⟩
  · exact h e h2

theorem GameInv_playerSet {g : Game} {pid : String} {p : Player}
    (hg : GameInv g) (hp : PlayerInv p) :
    GameInv { g with players := mapSet pid p g.players } := by
  refine ⟨?_, hg.2⟩
  intro e he
  rcases mem_mapSet he with h2 | h2
  · rw [h2]
    exact hp
  · exact hg.1 e h2

/-! ### Unfolding and shape lemmas for the operations -/

theorem freshPlayer_inv (pid pname : String) (x y : ℚ) (now : ℕ) :
    PlayerInv (freshPlayer pid pname x y now) := by
  refine ⟨?_, ?_, ?_⟩ <;> simp [freshPlayer, PlayerInv]

theorem movedPlayer_inv {p : Player} (_h0 : 0 ≤ p.energy)
    (h1 : p.energy ≤ 100) (h2 : 0 ≤ p.score) (x y : JSNum) (now : ℕ) :
    PlayerInv (movedPlayer p x y now) := by
  refine ⟨le_max_left _ _, ?_, h2⟩
  show max 0 (p.energy - 1/2) ≤ 100
  exact max_le (by norm_num) (by linarith)

theorem generateNodes_value_nonneg (rnd : ℕ → ℚ)
    (hr : ∀ i, 0 ≤ rnd i ∧ rnd i < 1) :
    ∀ e ∈ generateNodes rnd, 0 ≤ e.2.value := by
  intro e he
  simp only [generateNodes, List.mem_map] at he
  obtain ⟨i, _, rfl⟩ := he
  simp only [generateNode]
  have h4 := (hr (5 * i + 3)).1
  have hf : (0 : ℤ) ≤ ⌊rnd (5 * i + 3) * 200⌋ := by
    rw [Int.le_floor]
    push_cast
    exact mul_nonneg h4 (by norm_num)
  linarith

/-- The full result tuple of `movePlayer`'s applied branch, for the
resolved player `p` of game `gid`/`game`: the collision-resolved player and
game state written back, with the collision events followed by the
`playerMoved` emission. -/
def moveApplied (svc : GameService) (pid : String) (gid : ℕ) (game : Game)
    (p : Player) (x y : JSNum) (hs : ℕ → String) (now : ℕ) :
    GameService × Player × GameState × List Event :=
  let r := checkNodeCollisions gid hs game.nodes (movedPlayer p x y now)
    game.gameState 0
  ({ svc with
     games :=
       mapSet gid
         { game with
           players := mapSet pid r.2.1 game.players,
           nodes := r.1,
           gameState := r.2.2.1 }
         svc.games },
    r.2.1, r.2.2.1,
    r.2.2.2.2 ++ [Event.playerMoved gid pid r.2.1.x r.2.1.y r.2.1.energy])

theorem movePlayer_resolved (svc : GameService) (pid : String) (gid : ℕ)
    (game : Game) (p : Player) (x y : JSNum) (hs : ℕ → String) (now : ℕ)
    (h1 : mapGet pid svc.players = some gid)
    (h2 : mapGet gid svc.games = some game)
    (h3 : mapGet pid game.players = some p) :
    movePlayer svc pid x y hs now =
      if (jgt (jabs (jsub p.x x)) (JSNum.fin 5)
          || jgt (jabs (jsub p.y y)) (JSNum.fin 5)) = true then
        Except.ok (moveApplied svc pid gid game p x y hs now)
      else Except.ok (svc, p, game.gameState, []) := by
  simp only [movePlayer, moveApplied, h1, h2, h3]

/-- The full result tuple of a successful `commitWorldState`, for the
resolved player `p` of game `gid`/`game`. -/
def commitApplied (svc : GameService) (pid rh : String) (tk : ℕ) (gid : ℕ)
    (game : Game) (p : Player) :
    GameService × Player × GameState × List Event :=
  ({ svc with
     games :=
       mapSet gid
         { game with
           players :=
             mapSet pid
               { p with commits := p.commits + 1, score := p.score + 100 }
               game.players,
           gameState :=
             { game.gameState with
               totalCommits := game.gameState.totalCommits + 1,
               worldEnergy := game.gameState.worldEnergy + 50 } }
         svc.games },
    { p with commits := p.commits + 1, score := p.score + 100 },
    { game.gameState with
      totalCommits := game.gameState.totalCommits + 1,
      worldEnergy := game.gameState.worldEnergy + 50 },
    [Event.worldStateCommitted gid pid rh tk (p.commits + 1) (p.score + 100)])

theorem commitWorldState_resolved (svc : GameService) (pid rh : String)
    (tk : ℕ) (gid : ℕ) (game : Game) (p : Player)
    (h1 : mapGet pid svc.players = some gid)
    (h2 : mapGet gid svc.games = some game)
    (h3 : mapGet pid game.players = some p) :
    commitWorldState svc pid rh tk =
      Except.ok (commitApplied svc pid rh tk gid game p) := by
  simp only [commitWorldState, commitApplied, h1, h2, h3]

theorem joinGame_resolved (svc : GameService) (gid : ℕ)
    (pid pname : String) (rx ry : ℚ) (now : ℕ) (game : Game)
    (hg : mapGet gid svc.games = some game)
    (hp : game.gameState.gamePhase = Phase.playing) :
    joinGame svc gid pid pname rx ry now =
      Except.ok
        ({ svc with
           games :=
             mapSet gid
               { game with
                 players :=
                   mapSet pid
                     (freshPlayer pid pname (rx * 700 + 50) (ry * 500 + 50) now)
                     game.players }
               svc.games,
           players := mapSet pid gid svc.players },
          freshPlayer pid pname (rx * 700 + 50) (ry * 500 + 50) now,
          game.gameState,
          [Event.playerJoined gid
            (freshPlayer pid pname (rx * 700 + 50) (ry * 500 + 50) now)]) := by
  simp only [joinGame, hg, hp, if_true]

theorem endGame_eq_none (svc : GameService) (gid : ℕ)
    (h : mapGet gid svc.games = none) : endGame svc gid = (svc, []) := by
  simp only [endGame, h]

theorem endGame_eq_some (svc : GameService) (gid : ℕ) (game : Game)
    (h : mapGet gid svc.games = some game) :
    endGame svc gid =
      match winnerOf (mapValues game.players) with
      | none =>
        ({ svc with
           games :=
             mapSet gid
               { game with
                 gameState := { game.gameState with gamePhase := Phase.ended } }
               svc.games }, [])
      | some w =>
        ({ svc with
           games :=
             mapSet gid
               { game with
                 gameState :=
                   { game.gameState with
                     gamePhase := Phase.ended, winner := some w.name },
                 timer := false }
               svc.games },
          [Event.gameEnded gid w.name w.score (mapValues game.players)]) := by
  simp only [endGame, h]

theorem endGame_cases (svc : GameService) (gid : ℕ) :
    (endGame svc gid).1 = svc ∨
    ∃ game game', mapGet gid svc.games = some game ∧
      game'.players = game.players ∧ game'.nodes = game.nodes ∧
      (endGame svc gid).1 = { svc with games := mapSet gid game' svc.games } := by
  cases h : mapGet gid svc.games with
  | none =>
    rw [endGame_eq_none svc gid h]
    exact Or.inl rfl
  | some game =>
    rw [endGame_eq_some svc gid game h]
    cases hw : winnerOf (mapValues game.players) with
    | none =>
      exact Or.inr ⟨game,
        { game with
          gameState := { game.gameState with gamePhase := Phase.ended } },
        rfl, rfl, rfl, rfl⟩
    | some w =>
      exact Or.inr ⟨game,
        { game with
          gameState :=
            { game.gameState with
              gamePhase := Phase.ended, winner := some w.name },
          timer := false },
        rfl, rfl, rfl, rfl⟩

theorem timerTick_eq_none (svc : GameService) (gid : ℕ)
    (h : mapGet gid svc.games = none) : timerTick svc gid = (svc, []) := by
  simp only [timerTick, h]

theorem timerTick_eq_ended (svc : GameService) (gid : ℕ) (game : Game)
    (h : mapGet gid svc.games = some game)
    (hp : game.gameState.gamePhase ≠ Phase.playing) :
    timerTick svc gid =
      ({ svc with
         games := mapSet gid { game with timer := false } svc.games }, []) := by
  simp only [timerTick, h, hp, if_false]

/-- The `gameState` update of one loop firing while playing: `tick`
incremented, `timeLeft` decremented with the floor at 0. -/
def tickedGS (gs : GameState) : GameState :=
  { gs with tick := gs.tick + 1, timeLeft := max 0 (gs.timeLeft - 1) }

/-- The service after one loop firing has written the ticked game state
back (before any `endGame`). -/
def tickedSvc (svc : GameService) (gid : ℕ) (game : Game) : GameService :=
  { svc with
    games := mapSet gid { game with gameState := tickedGS game.gameState }
      svc.games }

/-- The every-fifth-tick broadcast of the loop. -/
def tickBroadcast (gid : ℕ) (game : Game) : List Event :=
  if (game.gameState.tick + 1) % 5 = 0 then
    [Event.gameStateUpdate gid (tickedGS game.gameState)
      (mapValues game.players) (mapValues game.nodes)]
  else []

theorem timerTick_eq_playing (svc : GameService) (gid : ℕ) (game : Game)
    (h : mapGet gid svc.games = some game)
    (hp : game.gameState.gamePhase = Phase.playing) :
    timerTick svc gid =
      if max 0 (game.gameState.timeLeft - 1) ≤ 0 then
        ((endGame (tickedSvc svc gid game) gid).1,
         tickBroadcast gid game ++ (endGame (tickedSvc svc gid game) gid).2)
      else (tickedSvc svc gid game, tickBroadcast gid game) := by
  simp only [timerTick, h, hp, if_true, tickedSvc, tickedGS, tickBroadcast]

theorem timerTick_cases (svc : GameService) (gid : ℕ) :
    (timerTick svc gid).1 = svc ∨
    ∃ game game', mapGet gid svc.games = some game ∧
      game'.players = game.players ∧ game'.nodes = game.nodes ∧
      (timerTick svc gid).1 = { svc with games := mapSet gid game' svc.games } := by
  cases h : mapGet gid svc.games with
  | none =>
    rw [timerTick_eq_none svc gid h]
    exact Or.inl rfl
  | some game =>
    by_cases hp : game.gameState.gamePhase = Phase.playing
    · rw [timerTick_eq_playing svc gid game h hp]
      by_cases ht : max 0 (game.gameState.timeLeft - 1) ≤ 0
      · simp only [ht, if_true]
        have hlook : mapGet gid (tickedSvc svc gid game).games
            = some { game with gameState := tickedGS game.gameState } :=
          mapGet_mapSet_self _ _ _
        rw [endGame_eq_some (tickedSvc svc gid game) gid
          { game with gameState := tickedGS game.gameState } hlook]
        cases hw : winnerOf (mapValues
            ({ game with gameState := tickedGS game.gameState } : Game).players) with
        | none =>
          refine Or.inr ⟨game,
            { game with
              gameState := { tickedGS game.gameState with gamePhase := Phase.ended } },
            rfl, rfl, rfl, ?_⟩
          show ({ tickedSvc svc gid game with
              games := mapSet gid _ (tickedSvc svc gid game).games } : GameService) = _
          simp only [tickedSvc, mapSet_mapSet]
        | some w =>
          refine Or.inr ⟨game,
            { game with
              gameState :=
                { tickedGS game.gameState with
                  gamePhase := Phase.ended, winner := some w.name },
              timer := false },
            rfl, rfl, rfl, ?_⟩
          show ({ tickedSvc svc gid game with
              games := mapSet gid _ (tickedSvc svc gid game).games } : GameService) = _
          simp only [tickedSvc, mapSet_mapSet]
      · simp only [ht, if_false]
        exact Or.inr ⟨game, { game with gameState := tickedGS game.gameState },
          rfl, rfl, rfl, rfl⟩
    · rw [timerTick_eq_ended svc gid game h hp]
      exact Or.inr ⟨game, { game with timer := false }, rfl, rfl, rfl, rfl⟩

theorem GameInv_congr {g g' : Game} (hpl : g'.players = g.players)
    (hnd : g'.nodes = g.nodes) (h : GameInv g) : GameInv g' := by
  unfold GameInv at *
  rw [hpl, hnd]
  exact h

theorem createGame_fst (svc : GameService) (pid pname : String) (t : ℚ)
    (rnd : ℕ → ℚ) (now : ℕ) :
    (createGame svc pid pname t rnd now).1 =
      { games :=
          mapSet svc.gameId
            { id := svc.gameId,
              players := [(pid, freshPlayer pid pname 400 300 now)],
              nodes := generateNodes rnd,
              gameState :=
                { tick := 0, worldEnergy := 1000, totalCommits := 0,
                  gamePhase := .playing, timeLeft := t, startTime := now,
                  winner := none },
              gameTime := t, timer := true }
            svc.games,
        players := mapSet pid svc.gameId svc.players,
        gameId := svc.gameId + 1 } := rfl

/-- One operation preserves the state invariant; and for every player
record present before the operation, the record under the same ids after
the operation has a score and commit count at least as large — unless the
operation is a `joinGame` under that player id (which installs a fresh
record). -/
theorem applyOp_preserve (svc : GameService) (op : Op)
    (hInv : Inv svc) (hwf : OpWF op) :
    Inv (applyOp svc op) ∧
    ∀ gid game pid p, mapGet gid svc.games = some game →
      mapGet pid game.players = some p → ¬ isJoinOf pid op →
      ∃ game' p', mapGet gid (applyOp svc op).games = some game' ∧
        mapGet pid game'.players = some p' ∧
        p.score ≤ p'.score ∧ p.commits ≤ p'.commits := by
  cases op with
  | create pidC pname t rnd now =>
    constructor
    · intro e he
      simp only [applyOp, createGame_fst] at he
      rcases mem_mapSet he with h2 | h2
      · rw [h2]
        refine ⟨⟨?_, ?_⟩, ?_⟩
        · intro pe hpe
          simp only [List.mem_singleton] at hpe
          rw [hpe]
          exact freshPlayer_inv pidC pname 400 300 now
        · exact generateNodes_value_nonneg rnd hwf
        · show svc.gameId < (applyOp svc (Op.create pidC pname t rnd now)).gameId
          simp only [applyOp, createGame_fst]
          exact Nat.lt_succ_self _
      · have h3 := hInv e h2
        refine ⟨h3.1, ?_⟩
        show e.1 < (applyOp svc (Op.create pidC pname t rnd now)).gameId
        simp only [applyOp, createGame_fst]
        exact Nat.lt_succ_of_lt h3.2
    · intro gid game pid p hg hp _
      have hne : svc.gameId ≠ gid :=
        Ne.symm (ne_of_lt (hInv _ (mapGet_mem hg)).2)
      refine ⟨game, p, ?_, hp, le_refl _, le_refl _⟩
      simp only [applyOp, createGame_fst]
      rw [mapGet_mapSet_ne _ hne]
      exact hg
  | join gidJ pidJ pname rx ry now =>
    cases hj : mapGet gidJ svc.games with
    | none =>
      have happ : applyOp svc (Op.join gidJ pidJ pname rx ry now) = svc := by
        simp only [applyOp, joinGame, hj]
      rw [happ]
      exact ⟨hInv, fun gid game pid p hg hp _ =>
        ⟨game, p, hg, hp, le_refl _, le_refl _⟩⟩
    | some game2 =>
      by_cases hph : game2.gameState.gamePhase = Phase.playing
      · have happ : applyOp svc (Op.join gidJ pidJ pname rx ry now) =
            { svc with
              games :=
                mapSet gidJ
                  { game2 with
                    players :=
                      mapSet pidJ
                        (freshPlayer pidJ pname (rx * 700 + 50)
                          (ry * 500 + 50) now)
                        game2.players }
                  svc.games,
              players := mapSet pidJ gidJ svc.players } := by
          simp only [applyOp,
            joinGame_resolved svc gidJ pidJ pname rx ry now game2 hj hph]
        rw [happ]
        constructor
        · intro e he
          rcases mem_mapSet he with h2 | h2
          · rw [h2]
            exact ⟨GameInv_playerSet (hInv _ (mapGet_mem hj)).1
                (freshPlayer_inv pidJ pname _ _ now),
              (hInv _ (mapGet_mem hj)).2⟩
          · exact hInv e h2
        · intro gid game pid p hg hp hnj
          have hpid : pidJ ≠ pid := hnj
          by_cases hgg : gidJ = gid
          · subst hgg
            have hgame : game2 = game := Option.some.inj (hj ▸ hg)
            subst hgame
            refine ⟨_, p, mapGet_mapSet_self _ _ _, ?_, le_refl _, le_refl _⟩
            rw [mapGet_mapSet_ne _ hpid]
            exact hp
          · refine ⟨game, p, ?_, hp, le_refl _, le_refl _⟩
            rw [mapGet_mapSet_ne _ hgg]
            exact hg
      · have happ : applyOp svc (Op.join gidJ pidJ pname rx ry now) = svc := by
          simp only [applyOp, joinGame, hj, if_neg hph]
        rw [happ]
        exact ⟨hInv, fun gid game pid p hg hp _ =>
          ⟨game, p, hg, hp, le_refl _, le_refl _⟩⟩
  | move pidM x y hs now =>
    cases hr1 : mapGet pidM svc.players with
    | none =>
      have happ : applyOp svc (Op.move pidM x y hs now) = svc := by
        simp only [applyOp, movePlayer, hr1]
      rw [happ]
      exact ⟨hInv, fun gid game pid p hg hp _ =>
        ⟨game, p, hg, hp, le_refl _, le_refl _⟩⟩
    | some gidM =>
      cases hr2 : mapGet gidM svc.games with
      | none =>
        have happ : applyOp svc (Op.move pidM x y hs now) = svc := by
          simp only [applyOp, movePlayer, hr1, hr2]
        rw [happ]
        exact ⟨hInv, fun gid game pid p hg hp _ =>
          ⟨game, p, hg, hp, le_refl _, le_refl _⟩⟩
      | some game2 =>
        cases hr3 : mapGet pidM game2.players with
        | none =>
          have happ : applyOp svc (Op.move pidM x y hs now) = svc := by
            simp only [applyOp, movePlayer, hr1, hr2, hr3]
          rw [happ]
          exact ⟨hInv, fun gid game pid p hg hp _ =>
            ⟨game, p, hg, hp, le_refl _, le_refl _⟩⟩
        | some p2 =>
          have hres := movePlayer_resolved svc pidM gidM game2 p2 x y hs now
            hr1 hr2 hr3
          by_cases hcond : (jgt (jabs (jsub p2.x x)) (JSNum.fin 5)
              || jgt (jabs (jsub p2.y y)) (JSNum.fin 5)) = true
          · rw [if_pos hcond] at hres
            have happ : applyOp svc (Op.move pidM x y hs now) =
                { svc with
                  games :=
                    mapSet gidM
                      { game2 with
                        players :=
                          mapSet pidM
                            (checkNodeCollisions gidM hs game2.nodes
                              (movedPlayer p2 x y now) game2.gameState 0).2.1
                            game2.players,
                        nodes :=
                          (checkNodeCollisions gidM hs game2.nodes
                            (movedPlayer p2 x y now) game2.gameState 0).1,
                        gameState :=
                          (checkNodeCollisions gidM hs game2.nodes
                            (movedPlayer p2 x y now) game2.gameState 0).2.2.1 }
                      svc.games } := by
              simp only [applyOp, hres]
              rfl
            obtain ⟨hnodes, hfold, hxx, hyy, hll⟩ :=
              checkNodeCollisions_spec gidM hs game2.nodes
                (movedPlayer p2 x y now) game2.gameState 0
            have hGI := (hInv _ (mapGet_mem hr2)).1
            have hPI : PlayerInv p2 := hGI.1 _ (mapGet_mem hr3)
            have hmi := movedPlayer_inv hPI.1 hPI.2.1 hPI.2.2 x y now
            have hvals : ∀ n ∈ ((game2.nodes.filter fun e =>
                e.2.isActive && collidesAt (movedPlayer p2 x y now).x
                  (movedPlayer p2 x y now).y e.2).map Prod.snd),
                0 ≤ n.value := by
              intro n hn
              simp only [List.mem_map] at hn
              obtain ⟨a, ha, rfl⟩ := hn
              exact hGI.2 a (List.mem_of_mem_filter ha)
            have hfoldInv := specFold_inv _ (movedPlayer p2 x y now)
              game2.gameState hmi.1 hmi.2.1 hmi.2.2 hvals
            have hp1 : (checkNodeCollisions gidM hs game2.nodes
                (movedPlayer p2 x y now) game2.gameState 0).2.1
                = (((game2.nodes.filter fun e =>
                    e.2.isActive && collidesAt (movedPlayer p2 x y now).x
                      (movedPlayer p2 x y now).y e.2).map Prod.snd).foldl
                  specNodeEffect (movedPlayer p2 x y now, game2.gameState)).1 :=
              congrArg Prod.fst hfold
            have hPInew : PlayerInv (checkNodeCollisions gidM hs game2.nodes
                (movedPlayer p2 x y now) game2.gameState 0).2.1 := by
              rw [hp1]
              exact ⟨hfoldInv.1, hfoldInv.2.1, hfoldInv.2.2.1⟩
            have hscore : p2.score ≤ (checkNodeCollisions gidM hs game2.nodes
                (movedPlayer p2 x y now) game2.gameState 0).2.1.score := by
              rw [hp1]
              exact hfoldInv.2.2.2.1
            have hcommits : p2.commits ≤ (checkNodeCollisions gidM hs
                game2.nodes (movedPlayer p2 x y now) game2.gameState 0).2.1.commits := by
              rw [hp1]
              exact hfoldInv.2.2.2.2
            have hnval : ∀ e ∈ (checkNodeCollisions gidM hs game2.nodes
                (movedPlayer p2 x y now) game2.gameState 0).1, 0 ≤ e.2.value := by
              rw [hnodes]
              intro e he
              simp only [List.mem_map] at he
              obtain ⟨a, ha, rfl⟩ := he
              split
              · exact hGI.2 a ha
              · exact hGI.2 a ha
            rw [happ]
            constructor
            · intro e he
              rcases mem_mapSet he with h2 | h2
              · rw [h2]
                refine ⟨⟨?_, hnval⟩, (hInv _ (mapGet_mem hr2)).2⟩
                intro pe hpe
                rcases mem_mapSet hpe with h3 | h3
                · rw [h3]
                  exact hPInew
                · exact hGI.1 pe h3
              · exact hInv e h2
            · intro gid game pid p hg hp _
              by_cases hgg : gidM = gid
              · subst hgg
                have hgame : game2 = game := Option.some.inj (hr2 ▸ hg)
                subst hgame
                by_cases hpp : pidM = pid
                · subst hpp
                  have hpe : p2 = p := Option.some.inj (hr3 ▸ hp)
                  subst hpe
                  exact ⟨_, _, mapGet_mapSet_self _ _ _,
                    mapGet_mapSet_self _ _ _, hscore, hcommits⟩
                · refine ⟨_, p, mapGet_mapSet_self _ _ _, ?_,
                    le_refl _, le_refl _⟩
                  rw [mapGet_mapSet_ne _ hpp]
                  exact hp
              · refine ⟨game, p, ?_, hp, le_refl _, le_refl _⟩
                rw [mapGet_mapSet_ne _ hgg]
                exact hg
          · rw [if_neg hcond] at hres
            have happ : applyOp svc (Op.move pidM x y hs now) = svc := by
              simp only [applyOp, hres]
            rw [happ]
            exact ⟨hInv, fun gid game pid p hg hp _ =>
              ⟨game, p, hg, hp, le_refl _, le_refl _⟩⟩
  | commit pidK rh tk =>
    cases hr1 : mapGet pidK svc.players with
    | none =>
      have happ : applyOp svc (Op.commit pidK rh tk) = svc := by
        simp only [applyOp, commitWorldState, hr1]
      rw [happ]
      exact ⟨hInv, fun gid game pid p hg hp _ =>
        ⟨game, p, hg, hp, le_refl _, le_refl _⟩⟩
    | some gidK =>
      cases hr2 : mapGet gidK svc.games with
      | none =>
        have happ : applyOp svc (Op.commit pidK rh tk) = svc := by
          simp only [applyOp, commitWorldState, hr1, hr2]
        rw [happ]
        exact ⟨hInv, fun gid game pid p hg hp _ =>
          ⟨game, p, hg, hp, le_refl _, le_refl _⟩⟩
      | some game2 =>
        cases hr3 : mapGet pidK game2.players with
        | none =>
          have happ : applyOp svc (Op.commit pidK rh tk) = svc := by
            simp only [applyOp, commitWorldState, hr1, hr2, hr3]
          rw [happ]
          exact ⟨hInv, fun gid game pid p hg hp _ =>
            ⟨game, p, hg, hp, le_refl _, le_refl _⟩⟩
        | some p2 =>
          have happ : applyOp svc (Op.commit pidK rh tk) =
              { svc with
                games :=
                  mapSet gidK
                    { game2 with
                      players :=
                        mapSet pidK
                          { p2 with commits := p2.commits + 1,
                                    score := p2.score + 100 }
                          game2.players,
                      gameState :=
                        { game2.gameState with
                          totalCommits := game2.gameState.totalCommits + 1,
                          worldEnergy := game2.gameState.worldEnergy + 50 } }
                    svc.games } := by
            simp only [applyOp,
              commitWorldState_resolved svc pidK rh tk gidK game2 p2 hr1 hr2 hr3]
            rfl
          have hGI := (hInv _ (mapGet_mem hr2)).1
          have hPI : PlayerInv p2 := hGI.1 _ (mapGet_mem hr3)
          have hPInew : PlayerInv
              { p2 with commits := p2.commits + 1, score := p2.score + 100 } :=
            ⟨hPI.1, hPI.2.1, by have := hPI.2.2; simp only []; linarith⟩
          rw [happ]
          constructor
          · intro e he
            rcases mem_mapSet he with h2 | h2
            · rw [h2]
              exact ⟨⟨fun pe hpe => by
                  rcases mem_mapSet hpe with h3 | h3
                  · rw [h3]
                    exact hPInew
                  · exact hGI.1 pe h3, hGI.2⟩,
                (hInv _ (mapGet_mem hr2)).2⟩
            · exact hInv e h2
          · intro gid game pid p hg hp _
            by_cases hgg : gidK = gid
            · subst hgg
              have hgame : game2 = game := Option.some.inj (hr2 ▸ hg)
              subst hgame
              by_cases hpp : pidK = pid
              · subst hpp
                have hpe : p2 = p := Option.some.inj (hr3 ▸ hp)
                subst hpe
                refine ⟨_, _, mapGet_mapSet_self _ _ _,
                  mapGet_mapSet_self _ _ _, by simp only []; linarith,
                  Nat.le_succ _⟩
              · refine ⟨_, p, mapGet_mapSet_self _ _ _, ?_,
                  le_refl _, le_refl _⟩
                rw [mapGet_mapSet_ne _ hpp]
                exact hp
            · refine ⟨game, p, ?_, hp, le_refl _, le_refl _⟩
              rw [mapGet_mapSet_ne _ hgg]
              exact hg
  | tick gidT =>
    have happ : applyOp svc (Op.tick gidT) = (timerTick svc gidT).1 := rfl
    rcases timerTick_cases svc gidT with hc | ⟨game2, game2', hlook, hpl, hnd, heq⟩
    · rw [happ, hc]
      exact ⟨hInv, fun gid game pid p hg hp _ =>
        ⟨game, p, hg, hp, le_refl _, le_refl _⟩⟩
    · rw [happ, heq]
      constructor
      · intro e he
        rcases mem_mapSet he with h2 | h2
        · rw [h2]
          exact ⟨GameInv_congr hpl hnd (hInv _ (mapGet_mem hlook)).1,
            (hInv _ (mapGet_mem hlook)).2⟩
        · exact hInv e h2
      · intro gid game pid p hg hp _
        by_cases hgg : gidT = gid
        · subst hgg
          have hgame : game2 = game := Option.some.inj (hlook ▸ hg)
          subst hgame
          refine ⟨game2', p, mapGet_mapSet_self _ _ _, ?_, le_refl _, le_refl _⟩
          rw [hpl]
          exact hp
        · refine ⟨game, p, ?_, hp, le_refl _, le_refl _⟩
          rw [mapGet_mapSet_ne _ hgg]
          exact hg

/-! ## The claims

The concrete-state proofs below evaluate the engine by kernel reduction;
the Batteries rational operations are restored to their default
reducibility for that purpose (they are `@[irreducible]` purely as an
elaboration-performance measure). -/

section Claims

set_option allowUnsafeReducibility true
attribute [local semireducible] Rat.add Rat.sub Rat.mul Rat.inv Rat.ofScientific
set_option maxRecDepth 4000

/-- One session of duration −5 owned by Alice (no duration validation). -/
def svcN : GameService := (createGame initService "p1" "Alice" (-5) zeroDraw 0).1

/-- C1 (counterexample): with two players tied on score (Alice inserted
first, Bob second), the loop firing that ends the duration-1 session
records Bob — the LAST player in iteration order — as winner, not the
first-encountered player Alice as the claim states. -/
theorem c1_winner_tie_counterexample :
    ((mapGet 1 svcAB1.games).map fun g =>
        (mapValues g.players).map Player.name) = some ["Alice", "Bob"] ∧
    ((mapGet 1 svcAB1.games).map fun g =>
        (mapValues g.players).map Player.score) = some [0, 0] ∧
    ((mapGet 1 svcAB1.games).map fun g => g.gameState.timeLeft) = some 1 ∧
    ((mapGet 1 (timerTick svcAB1 1).1.games).map fun g =>
        g.gameState.winner) = some (some "Bob") ∧
    "Bob" ≠ "Alice" := by decide

/-- C1 (amended): when the loop fires on a playing session whose
`timeLeft` is about to reach 0, exactly one transition happens: the phase
becomes `Ended`, the winner — a player of maximal score, with ties
resolved in favour of the last player encountered in iteration order — has
its name recorded, the timer is cleared, and a terminal `gameEnded`
broadcast with the winner and the final player list is emitted last. -/
theorem c1_end_transition (svc : GameService) (gid : ℕ) (game : Game)
    (w : Player)
    (hg : mapGet gid svc.games = some game)
    (hph : game.gameState.gamePhase = Phase.playing)
    (htime : game.gameState.timeLeft ≤ 1)
    (hw : winnerOf (mapValues game.players) = some w) :
    ∃ game', mapGet gid (timerTick svc gid).1.games = some game' ∧
      game'.gameState.gamePhase = Phase.ended ∧
      game'.gameState.winner = some w.name ∧
      game'.timer = false ∧
      w ∈ mapValues game.players ∧
      (∀ q ∈ mapValues game.players, q.score ≤ w.score) ∧
      (∀ pre last, mapValues game.players = pre ++ [last] →
        (∀ q ∈ pre, q.score ≤ last.score) → w = last) ∧
      (∃ evs1, (timerTick svc gid).2
        = evs1 ++ [Event.gameEnded gid w.name w.score
            (mapValues game.players)]) := by
  have htt := timerTick_eq_playing svc gid game hg hph
  have hcond : max 0 (game.gameState.timeLeft - 1) ≤ 0 :=
    max_le (le_refl 0) (by linarith)
  rw [if_pos hcond] at htt
  have hlook : mapGet gid (tickedSvc svc gid game).games
      = some { game with gameState := tickedGS game.gameState } :=
    mapGet_mapSet_self _ _ _
  have hend := endGame_eq_some (tickedSvc svc gid game) gid
    { game with gameState := tickedGS game.gameState } hlook
  rw [show mapValues ({ game with
      gameState := tickedGS game.gameState } : Game).players
      = mapValues game.players from rfl, hw] at hend
  rw [htt, hend]
  refine ⟨_, mapGet_mapSet_self _ _ _, rfl, rfl, rfl, winnerOf_mem hw,
    winnerOf_score hw, ?_, ⟨_, rfl⟩⟩
  intro pre last heq hle
  exact winnerOf_last_tie pre last w (heq ▸ hw) hle

/-- C1 witness: the two-player duration-1 session concretely ends with a
winner of maximal score on the firing that exhausts the timer. -/
theorem c1_end_transition_witness :
    ∃ game', mapGet 1 (timerTick svcAB1 1).1.games = some game' ∧
      game'.gameState.gamePhase = Phase.ended ∧
      game'.gameState.winner = some (playerOf svcAB1 1 "p2").name ∧
      game'.timer = false ∧
      playerOf svcAB1 1 "p2" ∈ mapValues (gameOf svcAB1 1).players ∧
      (∀ q ∈ mapValues (gameOf svcAB1 1).players,
        q.score ≤ (playerOf svcAB1 1 "p2").score) ∧
      (∀ pre last, mapValues (gameOf svcAB1 1).players = pre ++ [last] →
        (∀ q ∈ pre, q.score ≤ last.score) → playerOf svcAB1 1 "p2" = last) ∧
      (∃ evs1, (timerTick svcAB1 1).2
        = evs1 ++ [Event.gameEnded 1 (playerOf svcAB1 1 "p2").name
            (playerOf svcAB1 1 "p2").score
            (mapValues (gameOf svcAB1 1).players)]) :=
  c1_end_transition svcAB1 1 (gameOf svcAB1 1) (playerOf svcAB1 1 "p2")
    (by decide) (by decide) (by decide) (by decide)

/-- C2 (counterexample): a session that has transitioned to `Ended` still
accepts a `movePlayer` whose displacement exceeds the throttle: the stored
player position mutates from `(400, 300)` to `(100, 100)` — the move is
neither rejected nor a no-op on the terminal state. -/
theorem c2_ended_move_counterexample :
    ((mapGet 1 svcEnded.games).map fun g => g.gameState.gamePhase)
        = some Phase.ended ∧
    ((mapGet 1 svcEnded.games).map fun g =>
        (mapGet "p1" g.players).map Player.x) = some (some (JSNum.fin 400)) ∧
    ((movePlayer svcEnded "p1" (.fin 100) (.fin 100) zeroHash 5).toOption.map
        fun r => (mapGet 1 r.1.games).map fun g =>
          (mapGet "p1" g.players).map Player.x)
        = some (some (some (JSNum.fin 100))) := by decide

/-- C2 (amended): `Ended` is terminal for the loop — a firing on an
`Ended` session only clears the interval and emits nothing, mutating no
player — but `movePlayer` never consults the phase: a move request past
the throttle threshold succeeds and applies its full mutation even while
the session is `Ended`. -/
theorem c2_ended_terminal (svc : GameService) (gid : ℕ) (game : Game)
    (pid : String) (p : Player) (x y : JSNum) (hs : ℕ → String) (now : ℕ)
    (hg : mapGet gid svc.games = some game)
    (hph : game.gameState.gamePhase = Phase.ended) :
    timerTick svc gid
      = ({ svc with
           games := mapSet gid { game with timer := false } svc.games }, []) ∧
    (mapGet pid svc.players = some gid → mapGet pid game.players = some p →
      (jgt (jabs (jsub p.x x)) (JSNum.fin 5)
        || jgt (jabs (jsub p.y y)) (JSNum.fin 5)) = true →
      movePlayer svc pid x y hs now
        = .ok (moveApplied svc pid gid game p x y hs now)) := by
  constructor
  · exact timerTick_eq_ended svc gid game hg (by simp [hph])
  · intro h1 h3 hcond
    rw [movePlayer_resolved svc pid gid game p x y hs now h1 hg h3,
      if_pos hcond]

/-- C2 witness: both parts of the amended claim at the concrete ended
session. -/
theorem c2_ended_terminal_witness :
    timerTick svcEnded 1
      = ({ svcEnded with
           games := mapSet 1 { gameOf svcEnded 1 with timer := false }
             svcEnded.games }, []) ∧
    movePlayer svcEnded "p1" (.fin 100) (.fin 100) zeroHash 5
      = .ok (moveApplied svcEnded "p1" 1 (gameOf svcEnded 1)
          (playerOf svcEnded 1 "p1") (.fin 100) (.fin 100) zeroHash 5) :=
  ⟨(c2_ended_terminal svcEnded 1 (gameOf svcEnded 1) "p1"
      (playerOf svcEnded 1 "p1") (.fin 100) (.fin 100) zeroHash 5
      (by decide) (by decide)).1,
   (c2_ended_terminal svcEnded 1 (gameOf svcEnded 1) "p1"
      (playerOf svcEnded 1 "p1") (.fin 100) (.fin 100) zeroHash 5
      (by decide) (by decide)).2 (by decide) (by decide) (by decide)⟩

/-- C3 (counterexample): a move of displacement `(4, 4)` has Euclidean
length `√32 > 5`, yet the engine applies nothing: the per-axis test
`|dx| > 5 || |dy| > 5` is false, so the state is unchanged and no event is
emitted — refuting the claim that the move is applied iff the EUCLIDEAN
displacement exceeds 5. -/
theorem c3_euclidean_counterexample :
    ((5 : ℚ) * 5 < ((400 : ℚ) - 404) * ((400 : ℚ) - 404)
      + ((300 : ℚ) - 304) * ((300 : ℚ) - 304)) ∧
    (movePlayer svcA "p1" (.fin 404) (.fin 304) zeroHash 7).toOption
      = some (svcA, playerOf svcA 1 "p1", (gameOf svcA 1).gameState, []) := by
  constructor
  · norm_num
  · decide

/-- C3 (amended): `movePlayer` applies the move iff `|px − x| > 5` or
`|py − y| > 5` (a per-axis, not Euclidean, threshold); a sub-threshold
call returns the unchanged player and state and emits nothing, while an
applied move clamps the coordinates into `[50,750] × [50,550]`, decrements
energy by `0.5` floored at 0, stamps `lastMove`, runs collision
resolution, and emits `playerMoved` last. -/
theorem c3_throttle (svc : GameService) (pid : String) (gid : ℕ)
    (game : Game) (p : Player) (px py qx qy : ℚ) (hs : ℕ → String) (now : ℕ)
    (h1 : mapGet pid svc.players = some gid)
    (h2 : mapGet gid svc.games = some game)
    (h3 : mapGet pid game.players = some p)
    (hpx : p.x = .fin px) (hpy : p.y = .fin py) :
    (¬ (5 < |px - qx| ∨ 5 < |py - qy|) →
      movePlayer svc pid (.fin qx) (.fin qy) hs now
        = .ok (svc, p, game.gameState, [])) ∧
    ((5 < |px - qx| ∨ 5 < |py - qy|) →
      movePlayer svc pid (.fin qx) (.fin qy) hs now
        = .ok (moveApplied svc pid gid game p (.fin qx) (.fin qy) hs now)) ∧
    (movedPlayer p (.fin qx) (.fin qy) now).x = .fin (max 50 (min 750 qx)) ∧
    (movedPlayer p (.fin qx) (.fin qy) now).y = .fin (max 50 (min 550 qy)) ∧
    (movedPlayer p (.fin qx) (.fin qy) now).energy = max 0 (p.energy - 1/2) ∧
    (movedPlayer p (.fin qx) (.fin qy) now).lastMove = now ∧
    (moveApplied svc pid gid game p (.fin qx) (.fin qy) hs now).2.1
      = (checkNodeCollisions gid hs game.nodes
          (movedPlayer p (.fin qx) (.fin qy) now) game.gameState 0).2.1 ∧
    (∃ evs0,
      (moveApplied svc pid gid game p (.fin qx) (.fin qy) hs now).2.2.2
        = evs0 ++ [Event.playerMoved gid pid
            (moveApplied svc pid gid game p (.fin qx) (.fin qy) hs now).2.1.x
            (moveApplied svc pid gid game p (.fin qx) (.fin qy) hs now).2.1.y
            (moveApplied svc pid gid game p
              (.fin qx) (.fin qy) hs now).2.1.energy]) := by
  have hres := movePlayer_resolved svc pid gid game p (.fin qx) (.fin qy)
    hs now h1 h2 h3
  have hcond : ((jgt (jabs (jsub p.x (.fin qx))) (JSNum.fin 5)
      || jgt (jabs (jsub p.y (.fin qy))) (JSNum.fin 5)) = true)
      ↔ (5 < |px - qx| ∨ 5 < |py - qy|) := by
    rw [hpx, hpy]
    simp [jsub, jabs, jgt]
  refine ⟨?_, ?_, rfl, rfl, rfl, rfl, rfl, ⟨_, rfl⟩⟩
  · intro hno
    rw [hres, if_neg (fun hc => hno (hcond.mp hc))]
  · intro hyes
    rw [hres, if_pos (hcond.mpr hyes)]

/-- C3 witness: the sub-threshold branch of the amended claim at the
concrete session (displacement `(4,4)`, Euclidean length above 5). -/
theorem c3_throttle_witness :
    movePlayer svcA "p1" (.fin 404) (.fin 304) zeroHash 7
      = .ok (svcA, playerOf svcA 1 "p1", (gameOf svcA 1).gameState, []) :=
  (c3_throttle svcA "p1" 1 (gameOf svcA 1) (playerOf svcA 1 "p1")
    400 300 404 304 zeroHash 7 (by decide) (by decide) (by decide)
    (by decide) (by decide)).1 (by decide)

/-- C4 (counterexample): `createGame` performs no duration validation:
called with `durationSeconds = 0` (which the claim says must fail with
`InvalidDuration`) it allocates the session — phase `playing`, `timeLeft`
0, timer started, owner inserted, five nodes generated. -/
theorem c4_no_duration_validation_counterexample :
    ((0 : ℚ) ≤ 0) ∧
    ((mapGet 1 (createGame initService "p1" "Alice" 0 zeroDraw 0).1.games).map
        fun g => (g.gameState.gamePhase, g.gameState.timeLeft, g.timer,
          (mapGet "p1" g.players).isSome, g.nodes.length))
      = some (Phase.playing, 0, true, true, 5) := by decide

/-- C4 (amended): `createGame` never validates its duration: for EVERY
`durationSeconds` — including 0 and negative values — a session is
allocated with `timeLeft = durationSeconds` and phase `playing`, its five
nodes generated, the owner inserted at the center with a fresh record, the
loop started, and the registry mapping recorded; no `InvalidDuration`
error path exists (the function is total). -/
theorem c4_create_unvalidated (svc : GameService) (pid pname : String)
    (t : ℚ) (rnd : ℕ → ℚ) (now : ℕ) :
    ∃ game, mapGet svc.gameId (createGame svc pid pname t rnd now).1.games
        = some game ∧
      game.gameState.timeLeft = t ∧
      game.gameState.gamePhase = Phase.playing ∧
      game.timer = true ∧
      game.nodes = generateNodes rnd ∧
      mapGet pid game.players = some (freshPlayer pid pname 400 300 now) ∧
      mapGet pid (createGame svc pid pname t rnd now).1.players
        = some svc.gameId ∧
      (createGame svc pid pname t rnd now).1.gameId = svc.gameId + 1 := by
  refine ⟨{ id := svc.gameId,
            players := [(pid, freshPlayer pid pname 400 300 now)],
            nodes := generateNodes rnd,
            gameState :=
              { tick := 0, worldEnergy := 1000, totalCommits := 0,
                gamePhase := .playing, timeLeft := t, startTime := now,
                winner := none },
            gameTime := t, timer := true },
    ?_, rfl, rfl, rfl, rfl, ?_, ?_, rfl⟩
  · rw [createGame_fst]
    exact mapGet_mapSet_self _ _ _
  · simp [mapGet]
  · rw [createGame_fst]
    exact mapGet_mapSet_self _ _ _

/-- C5 (counterexample): `movePlayer` with `x = Infinity` is not rejected
with any `InvalidCoordinates` error — no such error exists in the engine —
and the non-finite coordinate is silently clamped into the arena bounds:
the stored position becomes `x = 750`. -/
theorem c5_infinite_clamped_counterexample :
    ((movePlayer svcA "p1" JSNum.posInf (.fin 300) zeroHash 3).toOption.map
        fun r => ((mapGet 1 r.1.games).map fun g =>
          (mapGet "p1" g.players).map Player.x))
      = some (some (some (JSNum.fin 750))) := by decide

/-- C5 (amended): `movePlayer` performs no finiteness validation and has
no `InvalidCoordinates` error: an infinite coordinate passes the throttle
comparison (for a finitely positioned player) and the call succeeds,
silently clamping `+Infinity` to the upper bound 750. -/
theorem c5_nonfinite_not_rejected (svc : GameService) (pid : String)
    (gid : ℕ) (game : Game) (p : Player) (px : ℚ) (hs : ℕ → String)
    (now : ℕ)
    (h1 : mapGet pid svc.players = some gid)
    (h2 : mapGet gid svc.games = some game)
    (h3 : mapGet pid game.players = some p)
    (hpx : p.x = .fin px) :
    movePlayer svc pid JSNum.posInf p.y hs now
      = .ok (moveApplied svc pid gid game p JSNum.posInf p.y hs now) ∧
    (movedPlayer p JSNum.posInf p.y now).x = JSNum.fin 750 := by
  have hres := movePlayer_resolved svc pid gid game p JSNum.posInf p.y
    hs now h1 h2 h3
  have hcond : (jgt (jabs (jsub p.x JSNum.posInf)) (JSNum.fin 5)
      || jgt (jabs (jsub p.y p.y)) (JSNum.fin 5)) = true := by
    rw [hpx]
    simp [jsub, jabs, jgt]
  refine ⟨by rw [hres, if_pos hcond], ?_⟩
  show jmax (.fin 50) (jmin (.fin 750) JSNum.posInf) = JSNum.fin 750
  simp [jmin, jmax]
  norm_num

/-- C5 witness: the concrete infinite-coordinate move succeeds and clamps. -/
theorem c5_nonfinite_not_rejected_witness :
    movePlayer svcA "p1" JSNum.posInf (playerOf svcA 1 "p1").y zeroHash 3
      = .ok (moveApplied svcA "p1" 1 (gameOf svcA 1) (playerOf svcA 1 "p1")
          JSNum.posInf (playerOf svcA 1 "p1").y zeroHash 3) ∧
    (movedPlayer (playerOf svcA 1 "p1") JSNum.posInf
        (playerOf svcA 1 "p1").y 3).x = JSNum.fin 750 :=
  c5_nonfinite_not_rejected svcA "p1" 1 (gameOf svcA 1)
    (playerOf svcA 1 "p1") 400 zeroHash 3 (by decide) (by decide)
    (by decide) (by decide)

/-- C6: on every applied move the collision engine deactivates exactly
the active nodes whose (Euclidean) distance from the player's position is
below `node.size + 25`, leaves every other node — in particular every
already-inactive node (first-touch-wins) — untouched, and applies to the
player and game state exactly the fold of the specification's
type-specific effects (energy: add value clamped to 100; commit: the
explicit-commit accounting; powerup: add value to score; blockchain: add
value to score and one commit) over the captured nodes in iteration
order. -/
theorem c6_collision_effects (gid : ℕ) (hs : ℕ → String)
    (nodes : List (ℕ × Node)) (p : Player) (gs : GameState) (k : ℕ) :
    (checkNodeCollisions gid hs nodes p gs k).1
        = nodes.map (fun e => if e.2.isActive && collidesAt p.x p.y e.2
            then (e.1, { e.2 with isActive := false }) else e) ∧
    ((checkNodeCollisions gid hs nodes p gs k).2.1,
      (checkNodeCollisions gid hs nodes p gs k).2.2.1)
        = ((nodes.filter fun e => e.2.isActive && collidesAt p.x p.y e.2).map
            Prod.snd).foldl specNodeEffect (p, gs) ∧
    (∀ e ∈ nodes, e.2.isActive = false →
      e ∈ (checkNodeCollisions gid hs nodes p gs k).1) := by
  obtain ⟨h1, h2, _, _, _⟩ := checkNodeCollisions_spec gid hs nodes p gs k
  refine ⟨h1, h2, ?_⟩
  intro e he hia
  rw [h1]
  refine List.mem_map.mpr ⟨e, he, ?_⟩
  simp [hia]

/-- C7 (counterexample): score and commits are NOT non-decreasing across
every operation: after an explicit commit Alice's record holds
`(score, commits) = (100, 1)`, and a `joinGame` under her id on the same
session replaces it with a fresh record `(0, 0)` — a decrease. -/
theorem c7_join_reset_counterexample :
    ((mapGet 1 svcB.games).map fun g =>
        (mapGet "p1" g.players).map fun p => (p.score, p.commits))
      = some (some (100, 1)) ∧
    ((joinGame svcB 1 "p1" "Alice2" 0 0 1).toOption.map fun r =>
        (mapGet 1 r.1.games).map fun g =>
          (mapGet "p1" g.players).map fun p => (p.score, p.commits))
      = some (some (some (0, 0))) ∧
    ¬ ((100 : ℤ) ≤ 0) := by decide

/-- C7 (amended): over every operation sequence, every player record in
every session keeps `energy ∈ [0, 100]` and a non-negative score (commit
counts are naturals, hence non-negative); and a player id's score and
commits are non-decreasing across every create, move, commit,
collision-handling and loop-tick operation — but not across a `joinGame`
under that id, which replaces the record with a fresh one. -/
theorem c7_invariants (svc : GameService) (ops : List Op)
    (hInv : Inv svc) (hwf : ∀ op ∈ ops, OpWF op) :
    Inv (applyOps svc ops) ∧
    ∀ gid game pid p, mapGet gid svc.games = some game →
      mapGet pid game.players = some p →
      (∀ op ∈ ops, ¬ isJoinOf pid op) →
      ∃ game' p', mapGet gid (applyOps svc ops).games = some game' ∧
        mapGet pid game'.players = some p' ∧
        PlayerInv p' ∧ p.score ≤ p'.score ∧ p.commits ≤ p'.commits := by
  induction ops generalizing svc with
  | nil =>
    refine ⟨hInv, ?_⟩
    intro gid game pid p hg hp _
    exact ⟨game, p, hg, hp,
      (hInv _ (mapGet_mem hg)).1.1 _ (mapGet_mem hp), le_refl _, le_refl _⟩
  | cons op ops ih =>
    have h1 := applyOp_preserve svc op hInv (hwf op (List.mem_cons_self _ _))
    have h2 := ih (applyOp svc op) h1.1
      (fun o ho => hwf o (List.mem_cons_of_mem _ ho))
    refine ⟨h2.1, ?_⟩
    intro gid game pid p hg hp hnj
    obtain ⟨game1, p1, hg1, hp1, hs1, hc1⟩ :=
      h1.2 gid game pid p hg hp (hnj op (List.mem_cons_self _ _))
    obtain ⟨game2, p2, hg2, hp2, hPI2, hs2, hc2⟩ :=
      h2.2 gid game1 pid p1 hg1 hp1
        (fun o ho => hnj o (List.mem_cons_of_mem _ ho))
    exact ⟨game2, p2, hg2, hp2, hPI2, le_trans hs1 hs2, le_trans hc1 hc2⟩

/-- C7 witness: the invariants and monotonicity at the concrete session
across an explicit commit followed by a loop tick. -/
theorem c7_invariants_witness :
    Inv (applyOps svcA [Op.commit "p1" "h2" 0, Op.tick 1]) ∧
    ∀ gid game pid p, mapGet gid svcA.games = some game →
      mapGet pid game.players = some p →
      (∀ op ∈ [Op.commit "p1" "h2" 0, Op.tick 1], ¬ isJoinOf pid op) →
      ∃ game' p',
        mapGet gid (applyOps svcA [Op.commit "p1" "h2" 0, Op.tick 1]).games
          = some game' ∧
        mapGet pid game'.players = some p' ∧
        PlayerInv p' ∧ p.score ≤ p'.score ∧ p.commits ≤ p'.commits :=
  c7_invariants svcA [Op.commit "p1" "h2" 0, Op.tick 1] (by decide)
    (by
      intro op hop
      rcases List.mem_cons.mp hop with h | h
      · rw [h]
        trivial
      · rcases List.mem_cons.mp h with h2 | h2
        · rw [h2]
          trivial
        · cases h2)

/-- C8 (counterexample): `timeLeft ≥ 0` does NOT always hold, and a firing
does not always decrease `timeLeft` by exactly 1: a session created with
duration −5 (no validation exists) starts playing at `timeLeft = −5`, and
its first firing sets `timeLeft` to 0 — a change of +5. -/
theorem c8_negative_time_counterexample :
    ((mapGet 1 svcN.games).map fun g =>
        (g.gameState.gamePhase, g.gameState.timeLeft))
      = some (Phase.playing, -5) ∧
    ¬ ((0 : ℚ) ≤ -5) ∧
    ((mapGet 1 (timerTick svcN 1).1.games).map fun g => g.gameState.timeLeft)
      = some 0 ∧
    (0 : ℚ) - (-5) ≠ -1 := by decide

/-- C8 (amended): on every loop firing while `Playing`, `tick` increases
by 1 and `timeLeft` becomes `max 0 (timeLeft − 1)` — an exact decrease of
1 whenever `timeLeft ≥ 1`, and non-negative after every firing; a firing
that brings the clamped `timeLeft` to 0 triggers the single transition to
`Ended` with one winner computation and clears the timer, while a firing
on an `Ended` session mutates nothing beyond clearing its interval — so
the loop never ticks an `Ended` session. -/
theorem c8_tick_behaviour (svc : GameService) (gid : ℕ) (game : Game)
    (hg : mapGet gid svc.games = some game) :
    (game.gameState.gamePhase = Phase.playing →
      ∃ game', mapGet gid (timerTick svc gid).1.games = some game' ∧
        game'.gameState.tick = game.gameState.tick + 1 ∧
        game'.gameState.timeLeft = max 0 (game.gameState.timeLeft - 1) ∧
        (1 ≤ game.gameState.timeLeft →
          game'.gameState.timeLeft = game.gameState.timeLeft - 1) ∧
        0 ≤ game'.gameState.timeLeft ∧
        (game.gameState.timeLeft ≤ 1 →
          game'.gameState.gamePhase = Phase.ended ∧
          ∀ w, winnerOf (mapValues game.players) = some w →
            game'.gameState.winner = some w.name ∧ game'.timer = false) ∧
        (1 < game.gameState.timeLeft →
          game'.gameState.gamePhase = Phase.playing ∧
          game'.players = game.players ∧
          game'.gameState.winner = game.gameState.winner)) ∧
    (game.gameState.gamePhase = Phase.ended →
      timerTick svc gid
        = ({ svc with
             games := mapSet gid { game with timer := false } svc.games },
           [])) := by
  constructor
  · intro hph
    have htt := timerTick_eq_playing svc gid game hg hph
    by_cases hcl : max 0 (game.gameState.timeLeft - 1) ≤ 0
    · rw [if_pos hcl] at htt
      have ht1 : game.gameState.timeLeft ≤ 1 := by
        have := le_trans (le_max_right 0 (game.gameState.timeLeft - 1)) hcl
        linarith
      have hlook : mapGet gid (tickedSvc svc gid game).games
          = some { game with gameState := tickedGS game.gameState } :=
        mapGet_mapSet_self _ _ _
      have hend := endGame_eq_some (tickedSvc svc gid game) gid
        { game with gameState := tickedGS game.gameState } hlook
      rw [htt, hend]
      cases hw0 : winnerOf (mapValues ({ game with
          gameState := tickedGS game.gameState } : Game).players) with
      | none =>
        refine ⟨_, mapGet_mapSet_self _ _ _, rfl, rfl, ?_, le_max_left _ _,
          ?_, ?_⟩
        · intro h1t
          exact max_eq_right (by linarith)
        · intro _
          refine ⟨rfl, ?_⟩
          intro w hw
          cases hw
        · intro h1t
          exact absurd ht1 (not_le_of_lt h1t)
      | some w0 =>
        refine ⟨_, mapGet_mapSet_self _ _ _, rfl, rfl, ?_, le_max_left _ _,
          ?_, ?_⟩
        · intro h1t
          exact max_eq_right (by linarith)
        · intro _
          refine ⟨rfl, ?_⟩
          intro w hw
          obtain rfl := Option.some.inj hw
          exact ⟨rfl, rfl⟩
        · intro h1t
          exact absurd ht1 (not_le_of_lt h1t)
    · rw [if_neg hcl] at htt
      rw [htt]
      refine ⟨_, mapGet_mapSet_self _ _ _, rfl, rfl, ?_, le_max_left _ _,
        ?_, fun _ => ⟨hph, rfl, rfl⟩⟩
      · intro h1t
        exact max_eq_right (by linarith)
      · intro hle
        exact absurd (max_le (le_refl 0) (by linarith)) hcl
  · intro hph
    exact timerTick_eq_ended svc gid game hg (by simp [hph])

/-- C8 witness: the per-firing behaviour at the concrete playing session
of duration 15. -/
theorem c8_tick_behaviour_witness :
    ∃ game', mapGet 1 (timerTick svcA 1).1.games = some game' ∧
      game'.gameState.tick = (gameOf svcA 1).gameState.tick + 1 ∧
      game'.gameState.timeLeft
        = max 0 ((gameOf svcA 1).gameState.timeLeft - 1) ∧
      (1 ≤ (gameOf svcA 1).gameState.timeLeft →
        game'.gameState.timeLeft = (gameOf svcA 1).gameState.timeLeft - 1) ∧
      0 ≤ game'.gameState.timeLeft ∧
      ((gameOf svcA 1).gameState.timeLeft ≤ 1 →
        game'.gameState.gamePhase = Phase.ended ∧
        ∀ w, winnerOf (mapValues (gameOf svcA 1).players) = some w →
          game'.gameState.winner = some w.name ∧ game'.timer = false) ∧
      (1 < (gameOf svcA 1).gameState.timeLeft →
        game'.gameState.gamePhase = Phase.playing ∧
        game'.players = (gameOf svcA 1).players ∧
        game'.gameState.winner = (gameOf svcA 1).gameState.winner) :=
  (c8_tick_behaviour svcA 1 (gameOf svcA 1) (by decide)).1 (by decide)

/-- C9: `commitWorldState` throws only when the player id has no registry
mapping (under registry consistency, which every reachable state
satisfies: mappings always point to an existing game containing the
player); the session's phase is never consulted, so whenever the lookups
resolve — in any phase, including `Ended` — the call succeeds, applies
exactly commits+1, score+100, totalCommits+1, worldEnergy+50, and emits
its `worldStateCommitted` event. -/
theorem c9_commit_no_phase_check (svc : GameService) (pid rh : String)
    (tk : ℕ) (hreg : RegInv svc) :
    (∀ gid game p, mapGet pid svc.players = some gid →
      mapGet gid svc.games = some game → mapGet pid game.players = some p →
      commitWorldState svc pid rh tk
        = .ok (commitApplied svc pid rh tk gid game p) ∧
      (commitApplied svc pid rh tk gid game p).2.1.commits = p.commits + 1 ∧
      (commitApplied svc pid rh tk gid game p).2.1.score = p.score + 100 ∧
      (commitApplied svc pid rh tk gid game p).2.2.1.totalCommits
        = game.gameState.totalCommits + 1 ∧
      (commitApplied svc pid rh tk gid game p).2.2.1.worldEnergy
        = game.gameState.worldEnergy + 50 ∧
      (commitApplied svc pid rh tk gid game p).2.2.2
        = [Event.worldStateCommitted gid pid rh tk (p.commits + 1)
            (p.score + 100)]) ∧
    (mapGet pid svc.players = none →
      commitWorldState svc pid rh tk = .error GameError.playerNotFound) ∧
    (∀ e, commitWorldState svc pid rh tk = .error e →
      e = GameError.playerNotFound ∧ mapGet pid svc.players = none) := by
  refine ⟨?_, ?_, ?_⟩
  · intro gid game p hr1 hr2 hr3
    exact ⟨commitWorldState_resolved svc pid rh tk gid game p hr1 hr2 hr3,
      rfl, rfl, rfl, rfl, rfl⟩
  · intro h1
    simp only [commitWorldState, h1]
  · intro e herr
    cases hr1 : mapGet pid svc.players with
    | none =>
      simp only [commitWorldState, hr1] at herr
      injection herr with h2
      exact ⟨h2.symm, rfl⟩
    | some gid =>
      have hmem := hreg (pid, gid) (mapGet_mem hr1)
      cases hr2 : mapGet gid svc.games with
      | none =>
        rw [hr2] at hmem
        simp at hmem
      | some game =>
        rw [hr2] at hmem
        cases hr3 : mapGet pid game.players with
        | none =>
          rw [show ((some game).bind fun g => mapGet pid g.players)
              = mapGet pid game.players from rfl, hr3] at hmem
          simp at hmem
        | some p =>
          rw [commitWorldState_resolved svc pid rh tk gid game p
            hr1 hr2 hr3] at herr
          cases herr

/-- C9 witness: the commit succeeds with its full accounting on the
concrete session that has already ENDED. -/
theorem c9_commit_no_phase_check_witness :
    (gameOf svcEnded 1).gameState.gamePhase = Phase.ended ∧
    (commitWorldState svcEnded "p1" "h3" 9
        = .ok (commitApplied svcEnded "p1" "h3" 9 1 (gameOf svcEnded 1)
            (playerOf svcEnded 1 "p1")) ∧
      (commitApplied svcEnded "p1" "h3" 9 1 (gameOf svcEnded 1)
          (playerOf svcEnded 1 "p1")).2.1.commits
        = (playerOf svcEnded 1 "p1").commits + 1 ∧
      (commitApplied svcEnded "p1" "h3" 9 1 (gameOf svcEnded 1)
          (playerOf svcEnded 1 "p1")).2.1.score
        = (playerOf svcEnded 1 "p1").score + 100 ∧
      (commitApplied svcEnded "p1" "h3" 9 1 (gameOf svcEnded 1)
          (playerOf svcEnded 1 "p1")).2.2.1.totalCommits
        = (gameOf svcEnded 1).gameState.totalCommits + 1 ∧
      (commitApplied svcEnded "p1" "h3" 9 1 (gameOf svcEnded 1)
          (playerOf svcEnded 1 "p1")).2.2.1.worldEnergy
        = (gameOf svcEnded 1).gameState.worldEnergy + 50 ∧
      (commitApplied svcEnded "p1" "h3" 9 1 (gameOf svcEnded 1)
          (playerOf svcEnded 1 "p1")).2.2.2
        = [Event.worldStateCommitted 1 "p1" "h3" 9
            ((playerOf svcEnded 1 "p1").commits + 1)
            ((playerOf svcEnded 1 "p1").score + 100)]) :=
  ⟨by decide,
   (c9_commit_no_phase_check svcEnded "p1" "h3" 9 (by decide)).1
     1 (gameOf svcEnded 1) (playerOf svcEnded 1 "p1")
     (by decide) (by decide) (by decide)⟩

/-- C10: on a `Playing` session, `joinGame` succeeds even when the player
id already has a record (in this or another session): it installs a fresh
record — energy 100, score 0, commits 0, the random interior spawn point —
overwriting the target session's record under that id, repoints the
registry mapping to the target session, and leaves every other session
(and hence any stale record there) untouched. -/
theorem c10_join_overwrite (svc : GameService) (gid : ℕ)
    (pid pname : String) (rx ry : ℚ) (now : ℕ) (game : Game) (pOld : Player)
    (hg : mapGet gid svc.games = some game)
    (hph : game.gameState.gamePhase = Phase.playing)
    (_hold : mapGet pid game.players = some pOld) :
    ∃ svc' evs,
      joinGame svc gid pid pname rx ry now
        = .ok (svc',
            freshPlayer pid pname (rx * 700 + 50) (ry * 500 + 50) now,
            game.gameState, evs) ∧
      (freshPlayer pid pname (rx * 700 + 50) (ry * 500 + 50) now).energy
        = 100 ∧
      (freshPlayer pid pname (rx * 700 + 50) (ry * 500 + 50) now).score
        = 0 ∧
      (freshPlayer pid pname (rx * 700 + 50) (ry * 500 + 50) now).commits
        = 0 ∧
      (freshPlayer pid pname (rx * 700 + 50) (ry * 500 + 50) now).x
        = .fin (rx * 700 + 50) ∧
      (freshPlayer pid pname (rx * 700 + 50) (ry * 500 + 50) now).y
        = .fin (ry * 500 + 50) ∧
      (∃ game', mapGet gid svc'.games = some game' ∧
        mapGet pid game'.players
          = some (freshPlayer pid pname (rx * 700 + 50) (ry * 500 + 50)
              now)) ∧
      mapGet pid svc'.players = some gid ∧
      (∀ gid2 game2, gid2 ≠ gid → mapGet gid2 svc.games = some game2 →
        mapGet gid2 svc'.games = some game2) := by
  refine ⟨_, _, joinGame_resolved svc gid pid pname rx ry now game hg hph,
    rfl, rfl, rfl, rfl, rfl,
    ⟨_, mapGet_mapSet_self _ _ _, mapGet_mapSet_self _ _ _⟩,
    mapGet_mapSet_self _ _ _, ?_⟩
  intro gid2 game2 hne hg2
  rw [mapGet_mapSet_ne _ (Ne.symm hne)]
  exact hg2

/-- C10 witness: Alice (score 100 after a commit) rejoins her own playing
session and is overwritten by a fresh record. -/
theorem c10_join_overwrite_witness :
    ∃ svc' evs,
      joinGame svcB 1 "p1" "Alice2" 0 0 4
        = .ok (svc', freshPlayer "p1" "Alice2" (0 * 700 + 50) (0 * 500 + 50) 4,
            (gameOf svcB 1).gameState, evs) ∧
      (freshPlayer "p1" "Alice2" (0 * 700 + 50) (0 * 500 + 50) 4).energy
        = 100 ∧
      (freshPlayer "p1" "Alice2" (0 * 700 + 50) (0 * 500 + 50) 4).score
        = 0 ∧
      (freshPlayer "p1" "Alice2" (0 * 700 + 50) (0 * 500 + 50) 4).commits
        = 0 ∧
      (freshPlayer "p1" "Alice2" (0 * 700 + 50) (0 * 500 + 50) 4).x
        = .fin (0 * 700 + 50) ∧
      (freshPlayer "p1" "Alice2" (0 * 700 + 50) (0 * 500 + 50) 4).y
        = .fin (0 * 500 + 50) ∧
      (∃ game', mapGet 1 svc'.games = some game' ∧
        mapGet "p1" game'.players
          = some (freshPlayer "p1" "Alice2" (0 * 700 + 50) (0 * 500 + 50)
              4)) ∧
      mapGet "p1" svc'.players = some 1 ∧
      (∀ gid2 game2, gid2 ≠ 1 → mapGet gid2 svcB.games = some game2 →
        mapGet gid2 svc'.games = some game2) :=
  c10_join_overwrite svcB 1 "p1" "Alice2" 0 0 4 (gameOf svcB 1)
    (playerOf svcB 1 "p1") (by decide) (by decide) (by decide)

end Claims

end Aptosphere
